import Mathlib

/-!
Verification of the tile selection and load-management engine of
cesium-native against its specification.

The definitions below are shallow embeddings of the functions in
`Cesium3DTilesSelection/src` (CompositeContent.cpp, TileContentFactory.cpp,
Tileset.cpp).  Machine doubles are modelled as rationals (the claims under
study are about control flow over ordered comparisons, not rounding);
`uint32_t` arithmetic is modelled as `Nat` reduced modulo `2 ^ 32` exactly
where C++ performs 32-bit wraparound.  Geometric subroutines that live
outside the provided sources (frustum visibility, distance, screen-space
error, fog attenuation, load-priority direction terms) are treated as
oracles supplied through a structure of functions.
-/

set_option maxHeartbeats 1000000

namespace CesiumSpec

/-! ## CompositeContent (CompositeContent.cpp) -/

/-- Little-endian read of a `uint32_t` at byte offset `off` of the payload,
as performed by the packed-struct casts (`CmptHeader`, `InnerHeader`) in
CompositeContent.cpp.  Out-of-range bytes read as zero; the loader's checks
keep all real reads in range. -/
def readU32 (data : List Nat) (off : Nat) : Nat :=
  data.getD off 0 + 256 * data.getD (off + 1) 0 + 65536 * data.getD (off + 2) 0 +
    16777216 * data.getD (off + 3) 0

/-- TileContentLoadResult, reduced to the part CompositeContent.cpp touches:
the optional glTF model.  A model is abstracted to its payload list and
`CesiumGltf::Model::merge` to concatenation. -/
structure TileContentLoadResultM where
  model : Option (List Nat)
deriving DecidableEq

/-- The inner-tile scanning loop of CompositeContent::load (lines 168-195).
Starting at byte `pos` with `remaining` iterations of the `for` loop left
(the loop runs while `i < tilesLength && pos < byteLength`), collect the
inner byte slices.  `pos` and the inner `byteLength` are `uint32_t`, so the
bound check `pos + pInner->byteLength > pHeader->byteLength` and the update
`pos += pInner->byteLength` wrap modulo `2 ^ 32` as in C++ (while
`pos + sizeof(InnerHeader)` is computed in `size_t` and does not wrap).
Returns the collected slices and whether the bound-violation warning
("Composite tile ends before all embedded tiles could be read.") fired. -/
def scanInnerTiles (data : List Nat) (outerByteLength : Nat) :
    Nat → Nat → List (List Nat) × Bool
  | 0, _ => ([], false)
  | remaining + 1, pos =>
    if pos < outerByteLength then
      if outerByteLength < pos + 12 then ([], true)
      else
        let innerLen := readU32 data (pos + 8)
        if outerByteLength < (pos + innerLen) % 4294967296 then ([], true)
        else
          let slice := (data.drop pos).take innerLen
          let rest :=
            scanInnerTiles data outerByteLength remaining ((pos + innerLen) % 4294967296)
          (slice :: rest.1, rest.2)
    else ([], false)

/-- The aggregation continuation passed to `all(...)` in
CompositeContent::load (lines 197-232).  The first component is the returned
content, the second whether the "does not contain any loadable inner tiles"
warning fired, and the third flags the path on which the C++ would
dereference a null `pResult` (first inner result null, a later one carrying
a model) — undefined behavior that the embedding only records. -/
def combineInnerResults (tilesLength : Nat) :
    List (Option TileContentLoadResultM) →
      Option TileContentLoadResultM × Bool × Bool
  | [] => (none, decide (0 < tilesLength), false)
  | [r] => (r, false, false)
  | r0 :: rest =>
    let step := fun (acc : Option TileContentLoadResultM × Bool)
        (ri : Option TileContentLoadResultM) =>
      match ri with
      | none => acc
      | some r =>
        match r.model with
        | none => acc
        | some m =>
          match acc.1 with
          | none => (acc.1, true)
          | some p =>
            match p.model with
            | some pm => (some ⟨some (pm ++ m)⟩, acc.2)
            | none => (some ⟨some m⟩, acc.2)
    let folded := rest.foldl step (r0, false)
    (folded.1, false, folded.2)

/-- Result of the composite loader: the content, whether any warning was
logged, and the undefined-behavior flag of `combineInnerResults`. -/
structure CmptLoadOutput where
  content : Option TileContentLoadResultM
  warned : Bool
  ubNullMerge : Bool

/-- CompositeContent::load (lines 122-233).  `dispatch` abstracts
`TileContentFactory::createContent` applied to the derived inner request
(the derived request shares method, URL, headers and status with the outer
one, clears the content type, and substitutes the inner byte slice), so the
embedding passes each collected slice to `dispatch`.  The header checks are
the four early-outs of the source: size below 16, wrong magic, wrong
version, `byteLength` beyond the available data. -/
def cmptLoad (dispatch : List Nat → Option TileContentLoadResultM)
    (data : List Nat) : CmptLoadOutput :=
  if data.length < 16 then ⟨none, true, false⟩
  else if ¬(data.take 4 = [99, 109, 112, 116]) then ⟨none, true, false⟩
  else if ¬(readU32 data 4 = 1) then ⟨none, true, false⟩
  else if data.length < readU32 data 8 then ⟨none, true, false⟩
  else
    let byteLength := readU32 data 8
    let tilesLength := readU32 data 12
    let scanned := scanInnerTiles data byteLength tilesLength 16
    let results := scanned.1.map dispatch
    let combined := combineInnerResults tilesLength results
    ⟨combined.1, scanned.2 || combined.2.1, combined.2.2⟩

/-- Validity of the outer `cmpt` header: the conditions under which
CompositeContent::load proceeds past its four early-outs. -/
def cmptOuterHeaderValid (data : List Nat) : Bool :=
  decide (16 ≤ data.length) && decide (data.take 4 = [99, 109, 112, 116]) &&
  decide (readU32 data 4 = 1) && decide (readU32 data 8 ≤ data.length)

/-- Whether scanning the inner tiles hits a bound violation (an inner header
or an inner tile's `byteLength` extending past the composite's
`byteLength`). -/
def cmptBoundViolated (data : List Nat) : Bool :=
  (scanInnerTiles data (readU32 data 8) (readU32 data 12) 16).2

/-- The inner slices read before any violation. -/
def cmptInnerSlices (data : List Nat) : List (List Nat) :=
  (scanInnerTiles data (readU32 data 8) (readU32 data 12) 16).1

/-! ## TileContentFactory (TileContentFactory.cpp) -/

/-- The three keyed loader maps of TileContentFactory, with loaders
identified by numbers.  Registration lowercases the content-type and
file-extension keys (registerContentType, registerFileExtension), so a
well-formed registry holds lowercase keys in those two maps; the lookup
code is modelled exactly as written. -/
structure LoaderRegistry where
  byMagic : List (String × Nat)
  byContentType : List (String × Nat)
  byFileExtension : List (String × Nat)

/-- Outcome of content dispatch: a loader, or the "No loader registered"
warning with a null result. -/
inductive DispatchOutcome
  | loader (id : Nat)
  | notUnderstood
deriving DecidableEq

/-- ASCII `::tolower`, as applied by the factory to extensions. -/
def asciiToLower (c : Char) : Char :=
  if 'A' ≤ c ∧ c ≤ 'Z' then Char.ofNat (c.toNat + 32) else c

/-- ASCII `std::isspace` (space, tab, newline, vertical tab, form feed,
carriage return). -/
def asciiIsSpace (c : Char) : Bool :=
  c = ' ' || c = '\t' || c = '\n' || c = Char.ofNat 11 || c = Char.ofNat 12 || c = '\r'

/-- TileContentFactory::getMagic (lines 125-133): the first four bytes as a
string, or nothing when fewer than four bytes are available. -/
def getMagic (data : List Char) : Option String :=
  if 4 ≤ data.length then some (String.mk (data.take 4)) else none

/-- The tail of TileContentFactory::createContent after the magic lookup
missed (lines 62-114): content-type prefix lookup, lowercased URL-extension
lookup, then the JSON sniff on the first non-whitespace byte. -/
def dispatchAfterMagic (reg : LoaderRegistry) (data : List Char)
    (contentType url : String) : DispatchOutcome :=
  let baseContentType := String.mk (contentType.data.takeWhile (· ≠ ';'))
  match reg.byContentType.lookup baseContentType with
  | some l => .loader l
  | none =>
    let urlWithoutQueries := url.data.takeWhile (· ≠ '?')
    let extLookup : Option Nat :=
      if urlWithoutQueries.contains '.' then
        let ext :=
          '.' :: ((urlWithoutQueries.reverse.takeWhile (· ≠ '.')).reverse)
        reg.byFileExtension.lookup (String.mk (ext.map asciiToLower))
      else none
    match extLookup with
    | some l => .loader l
    | none =>
      match data.dropWhile (fun c => asciiIsSpace c) with
      | '{' :: _ =>
        match reg.byMagic.lookup "json" with
        | some l => .loader l
        | none => .notUnderstood
      | _ => .notUnderstood

/-- TileContentFactory::createContent (lines 52-115).  The magic key is
`getMagic(data).value_or("json")`: when the payload has fewer than four
bytes the literal string "json" is looked up in the magic map. -/
def createContent (reg : LoaderRegistry) (data : List Char)
    (contentType url : String) : DispatchOutcome :=
  let magic := (getMagic data).getD "json"
  match reg.byMagic.lookup magic with
  | some l => .loader l
  | none => dispatchAfterMagic reg data contentType url

/-- Dispatch as the specification words it: "registered magic (first four
bytes as ASCII), then registered lowercase MIME type (the content type
before ';'), then registered lowercase URL extension; if none of these
matches and the first non-whitespace byte of the data is '{', the JSON
(external-tileset) loader is used; otherwise a null result".  The magic
step matches only when four bytes exist. -/
def claimDispatch (reg : LoaderRegistry) (data : List Char)
    (contentType url : String) : DispatchOutcome :=
  let magicLookup : Option Nat :=
    if 4 ≤ data.length then reg.byMagic.lookup (String.mk (data.take 4))
    else none
  match magicLookup with
  | some l => .loader l
  | none => dispatchAfterMagic reg data contentType url

/-! ## Tile load and selection state (Tileset.cpp, spec §3) -/

/-- Tile::LoadState (§3 of the spec). -/
inductive LoadStateM
  | unloaded
  | contentLoading
  | contentLoaded
  | doneLoading
  | failed
  | failedTemporarily
  | unloading
deriving DecidableEq

/-- Original selection results (§3). -/
inductive SelResult
  | noResult
  | culled
  | rendered
  | refined
deriving DecidableEq

/-- Modelled from the spec: TileSelectionState (§3) is the per-tile record
`(frameNumber, original-result, kicked?)`; its header is not among the
provided sources.  In the C++ enum the kicked states are separate values
(RenderedAndKicked, RefinedAndKicked), which this record splits into the
original result plus the `kicked` flag. -/
structure SelState where
  frameNumber : Int
  result : SelResult
  kicked : Bool
deriving DecidableEq

/-- TileSelectionState::getOriginalResult: `None` unless the stored frame
number matches. -/
def SelState.getOriginalResult (s : SelState) (f : Int) : SelResult :=
  if s.frameNumber = f then s.result else .noResult

/-- The C++ test `getResult(frame) == Result::Rendered`: true only for an
unkicked rendered record of that frame (a kicked record is the distinct
enum value RenderedAndKicked and compares unequal). -/
def SelState.resultIsRendered (s : SelState) (f : Int) : Bool :=
  decide (s.frameNumber = f) && decide (s.result = .rendered) && !s.kicked

/-- The C++ test `getResult(frame) == Result::Refined` (used by
markChildrenNonRendered): true only for an unkicked refined record. -/
def SelState.resultIsRefined (s : SelState) (f : Int) : Bool :=
  decide (s.frameNumber = f) && decide (s.result = .refined) && !s.kicked

/-- TileSelectionState::wasKicked for a frame. -/
def SelState.wasKicked (s : SelState) (f : Int) : Bool :=
  decide (s.frameNumber = f) && s.kicked

/-- Modelled from the spec: TileSelectionState::kick.  Per the §8 kick
invariant it marks rendered descendants and their refined ancestors
kicked; a record in any other state is left unchanged (the C++ switch has
cases only for Rendered and Refined). -/
def SelState.kick (s : SelState) : SelState :=
  if s.result = .rendered ∨ s.result = .refined then { s with kicked := true }
  else s

/-- Map from tile id to its selection record. -/
abbrev SelMap := Nat → SelState

/-- Pointwise update of a selection map. -/
def updateSel (m : SelMap) (i : Nat) (s : SelState) : SelMap :=
  fun j => if j = i then s else m j

/-! ## The kick marking walk (Tileset.cpp lines 1879-1892) -/

/-- The inner `while` of the kick marking loop: starting from tile `cur`,
kick the tile and climb to its parent until hitting a null parent, a tile
already kicked this frame, or the visited tile `tId` itself.  `fuel` bounds
the walk (the C++ loop terminates because parent chains are finite). -/
def markChain (parent : Nat → Option Nat) (tId : Nat) (f : Int) :
    Nat → Option Nat → SelMap → SelMap
  | _, none, m => m
  | 0, some _, m => m
  | fuel + 1, some c, m =>
    if (m c).wasKicked f || decide (c = tId) then m
    else markChain parent tId f fuel (parent c) (updateSel m c (m c).kick)

/-- The outer `for` of the kick marking loop: apply the walk to every
rendered descendant in the render-list slice. -/
def markKicked (parent : Nat → Option Nat) (tId : Nat) (f : Int)
    (fuel : Nat) (descendants : List Nat) (m : SelMap) : SelMap :=
  descendants.foldl (fun m d => markChain parent tId f fuel (some d) m) m

/-- The parent chain from `c` up to but excluding `tId`: exactly the tiles
the kick walk visits before stopping at `tId`.  `none` when `tId` is not
reached within `fuel` steps. -/
def chainTo (parent : Nat → Option Nat) (tId : Nat) :
    Nat → Nat → Option (List Nat)
  | 0, _ => none
  | fuel + 1, c =>
    if c = tId then some []
    else
      match parent c with
      | none => none
      | some p => (chainTo parent tId fuel p).map (c :: ·)

/-! ## Traversal configuration (Tileset.cpp) -/

/-- Tile identity, a discriminated union (§3).  Quadtree/octree coordinates
and the upsampled marker are not inspected by the traversal functions
modelled here beyond their variant. -/
inductive TileIdM
  | url (s : String)
  | quad
  | oct
  | upsampled
deriving DecidableEq

/-- Per-tile static attributes used by the traversal.  `excluded` is the
verdict of the user exclusion predicates; the `usingImplicit…`,
`subtreeLoaded` (`pCurrentNode && pCurrentNode->subtree`),
`contentAvailableFlag` (`availability & CONTENT_AVAILABLE`) and
`shouldQueueSubtreeLoad` fields are the ImplicitTraversalInfo values for the
tile's position (ImplicitTraversalInfo is built outside the provided
sources, so its fields are inputs here). -/
structure TileAttrs where
  geometricError : ℚ
  refineAdd : Bool
  unconditionallyRefine : Bool
  tileID : TileIdM
  isExternalTileset : Bool
  rasterNeedsLoading : Bool
  usingImplicitQuadtreeTiling : Bool
  usingImplicitOctreeTiling : Bool
  subtreeLoaded : Bool
  contentAvailableFlag : Bool
  shouldQueueSubtreeLoad : Bool
  excluded : Bool

/-- Geometric oracle: the ViewState/bounding-volume computations invoked by
the traversal but implemented outside the provided sources.  `distanceTo`
stands for `sqrt(max(computeDistanceSquaredToBoundingVolume, 0))`,
`screenSpaceError i g d` for frustum i's `computeScreenSpaceError(g, d)`,
`expVanishes x` for the double-precision test `exp(-(x*x)) == 0.0`, and
`loadPriorityTerm i t` for `(1 - dot(unit(center - camPos), camDir)) *
distance`, `none` when `|center - camPos|` is below epsilon. -/
structure GeomOracle where
  numFrustums : Nat
  visibleFromCamera : Nat → Nat → Bool
  distanceTo : Nat → Nat → ℚ
  screenSpaceError : Nat → ℚ → ℚ → ℚ
  fogDensity : Nat → ℚ
  expVanishes : ℚ → Bool
  loadPriorityTerm : Nat → Nat → Option ℚ

/-- The TilesetOptions fields read by the traversal. -/
structure TOptions where
  maximumScreenSpaceError : ℚ
  culledScreenSpaceError : ℚ
  enforceCulledScreenSpaceError : Bool
  forbidHoles : Bool
  preloadAncestors : Bool
  preloadSiblings : Bool
  enableFrustumCulling : Bool
  enableFogCulling : Bool
  loadingDescendantLimit : Nat

/-- Whole traversal configuration: tree shape (children and parent maps over
tile ids), static attributes, oracles, options and the frame numbers.
`kickFuel` bounds the kick parent walk; any value at least the tree depth
is faithful. -/
structure TravConfig where
  childrenOf : Nat → List Nat
  parent : Nat → Option Nat
  attrs : Nat → TileAttrs
  geom : GeomOracle
  opts : TOptions
  currentFrame : Int
  lastFrame : Int
  kickFuel : Nat

/-- An entry of a load queue: Tileset::LoadRecord.  Modelled from the spec:
the record's `operator<` (used by the per-frame sort) orders by the load
priority, lower first. -/
structure LoadRecordM where
  tileId : Nat
  priority : ℚ
deriving DecidableEq

/-- TraversalDetails (Tileset.h, used throughout the traversal).  The
default values are the child-aggregation identities of §4.1.4:
AND starts true, OR starts false, SUM starts zero. -/
structure TraversalDetails where
  allAreRenderable : Bool := true
  anyWereRenderedLastFrame : Bool := false
  notYetRenderableCount : Nat := 0
deriving DecidableEq

/-- ViewUpdateResult plus the per-frame mutable tile data the traversal
touches: selection states, load states and the LRU list. -/
structure TravState where
  renderList : List Nat
  noLongerRender : List Nat
  loadQueueHigh : List LoadRecordM
  loadQueueMedium : List LoadRecordM
  loadQueueLow : List LoadRecordM
  subtreeLoadQueue : List Nat
  sel : SelMap
  load : Nat → LoadStateM
  lru : List Nat
  tilesVisited : Nat
  culledTilesVisited : Nat
  tilesCulled : Nat
  maxDepthVisited : Nat

/-- Pointwise update of a load-state map. -/
def updateLoad (m : Nat → LoadStateM) (i : Nat) (s : LoadStateM) :
    Nat → LoadStateM :=
  fun j => if j = i then s else m j

/-- Modelled from the spec: Tile::isRenderable ("the tile is done loading
and ready to render", §4.1.2/4.1.3); Tile.cpp is not among the provided
sources. -/
def isRenderableM (st : TravState) (id : Nat) : Bool :=
  decide (st.load id = .doneLoading)

/-- The per-tile distance vector: `sqrt(max(distanceSquared, 0))` for each
frustum (Tileset.cpp lines 1583-1591), delivered by the distance oracle. -/
def computeDistances (cfg : TravConfig) (id : Nat) : List ℚ :=
  (List.range cfg.geom.numFrustums).map (fun i => cfg.geom.distanceTo i id)

/-- Stand-in for `std::numeric_limits<double>::max()`, the initial value of
the load-priority fold. -/
def doubleMax : ℚ := 2 ^ 1024

/-! ## addTileToLoadQueue (Tileset.cpp lines 2365-2441) -/

/-- The load-priority fold of addTileToLoadQueue (lines 2371-2394): minimize
the per-frustum priority term over `i < min(frustums.size, distances.size)`;
frustums whose camera offset is below epsilon contribute nothing. -/
def computeLoadPriority (geom : GeomOracle) (tileId : Nat)
    (distances : List ℚ) : ℚ :=
  (List.range (min geom.numFrustums distances.length)).foldl
    (fun acc i =>
      match geom.loadPriorityTerm i tileId with
      | none => acc
      | some p => if p < acc then p else acc)
    doubleMax

/-- Core of Tileset::addTileToLoadQueue (lines 2365-2441) for one tile:
given its attributes and load state, returns the updated queue, the tile's
updated load state, and the computed priority.  The outer gate is
`state == Unloaded || anyRasterOverlaysNeedLoading(tile)`; the
content-availability analysis then decides between pushing a LoadRecord,
short-circuiting the tile to ContentLoaded, or doing nothing. -/
def addTileToLoadQueueCore (geom : GeomOracle) (a : TileAttrs)
    (ld : LoadStateM) (tileId : Nat) (distances : List ℚ)
    (queue : List LoadRecordM) : List LoadRecordM × LoadStateM × ℚ :=
  if ld = .unloaded ∨ a.rasterNeedsLoading = true then
    let highestLoadPriority := computeLoadPriority geom tileId distances
    let emptyContentUri : Bool :=
      match a.tileID with
      | .url s => decide (s = "")
      | _ => false
    let usingImplicitTiling :=
      a.usingImplicitQuadtreeTiling || a.usingImplicitOctreeTiling
    let flags : Bool × Bool :=
      if usingImplicitTiling then
        if a.subtreeLoaded then
          if a.contentAvailableFlag then (true, false) else (false, true)
        else (false, false)
      else
        if emptyContentUri then (false, true) else (true, false)
    let shouldLoad := flags.1
    let hasNoContent := flags.2
    if hasNoContent then
      (queue, if ld = .unloaded then .contentLoaded else ld,
        highestLoadPriority)
    else if shouldLoad then
      (queue ++ [⟨tileId, highestLoadPriority⟩], ld, highestLoadPriority)
    else (queue, ld, highestLoadPriority)
  else (queue, ld, doubleMax)

/-- Which of the three tile load queues a call targets. -/
inductive QueueId
  | high
  | medium
  | low
deriving DecidableEq

/-- addTileToLoadQueue applied to one of the traversal state's queues. -/
def addTileToLoadQueueM (cfg : TravConfig) (st : TravState) (q : QueueId)
    (tileId : Nat) (distances : List ℚ) : TravState × ℚ :=
  let picked :=
    match q with
    | .high => st.loadQueueHigh
    | .medium => st.loadQueueMedium
    | .low => st.loadQueueLow
  let r := addTileToLoadQueueCore cfg.geom (cfg.attrs tileId)
    (st.load tileId) tileId distances picked
  let st := { st with load := updateLoad st.load tileId r.2.1 }
  match q with
  | .high => ({ st with loadQueueHigh := r.1 }, r.2.2)
  | .medium => ({ st with loadQueueMedium := r.1 }, r.2.2)
  | .low => ({ st with loadQueueLow := r.1 }, r.2.2)

/-! ## _meetsSse and fog visibility -/

/-- Tileset::_meetsSse (lines 1731-1754): fold the per-frustum screen-space
errors through `if (sse > largestSse) largestSse = sse` starting from zero,
then compare against the appropriate threshold. -/
def meetsSseM (geom : GeomOracle) (opts : TOptions) (geometricError : ℚ)
    (distances : List ℚ) (culled : Bool) : Bool :=
  let largestSse :=
    ((List.range (min geom.numFrustums distances.length)).map
        (fun i => geom.screenSpaceError i geometricError (distances.getD i 0))).foldl
      (fun acc sse => if acc < sse then sse else acc) 0
  if culled then
    !opts.enforceCulledScreenSpaceError ||
      decide (largestSse < opts.culledScreenSpaceError)
  else decide (largestSse < opts.maximumScreenSpaceError)

/-- isVisibleInFog (lines 1490-1497): visible when the density is
nonpositive or the double `exp(-(distance*density)^2)` is still positive. -/
def isVisibleInFogM (geom : GeomOracle) (distance fogDensity : ℚ) : Bool :=
  if fogDensity ≤ 0 then true
  else !geom.expVanishes (distance * fogDensity)

/-! ## Render-list bookkeeping helpers (Tileset.cpp lines 1394-1444) -/

/-- markTileNonRendered: push the tile on tilesToNoLongerRenderThisFrame
when its last-frame result was (unkicked) Rendered. -/
def markTileNonRenderedM (lastFrame : Int) (id : Nat) (st : TravState) :
    TravState :=
  if (st.sel id).resultIsRendered lastFrame then
    { st with noLongerRender := st.noLongerRender ++ [id] }
  else st

/-- markChildrenNonRendered: when the tile's last-frame result was
(unkicked) Refined, mark each child non-rendered and recurse.  `fuel`
bounds the subtree depth. -/
def markChildrenNonRenderedM (cfg : TravConfig) (lastFrame : Int) :
    Nat → Nat → TravState → TravState
  | 0, _, st => st
  | fuel + 1, id, st =>
    if (st.sel id).resultIsRefined lastFrame then
      (cfg.childrenOf id).foldl
        (fun st c =>
          markChildrenNonRenderedM cfg lastFrame fuel c
            (markTileNonRenderedM lastFrame c st))
        st
    else st

/-- markTileAndChildrenNonRendered. -/
def markTileAndChildrenNonRenderedM (cfg : TravConfig) (lastFrame : Int)
    (fuel : Nat) (id : Nat) (st : TravState) : TravState :=
  markChildrenNonRenderedM cfg lastFrame fuel id
    (markTileNonRenderedM lastFrame id st)

/-! ## Per-tile render decisions (Tileset.cpp lines 1653-1956) -/

/-- shouldRenderThisTile (lines 1765-1785): render when last frame's
original result was Rendered, Culled or None, or when the tile is
presently renderable. -/
def shouldRenderThisTileM (st : TravState) (id : Nat) (lastFrame : Int) :
    Bool :=
  let originalResult := (st.sel id).getOriginalResult lastFrame
  decide (originalResult = .rendered) || decide (originalResult = .culled) ||
    decide (originalResult = .noResult) || isRenderableM st id

/-- _renderLeaf (lines 1653-1687): record Rendered, push on the render
list, enqueue on Medium, and queue the subtree load when the implicit info
asks for it. -/
def renderLeafM (cfg : TravConfig) (id : Nat) (distances : List ℚ)
    (st : TravState) : TravState × TraversalDetails :=
  let lastFrameSelectionState := st.sel id
  let st := { st with
    sel := updateSel st.sel id ⟨cfg.currentFrame, .rendered, false⟩,
    renderList := st.renderList ++ [id] }
  let r := addTileToLoadQueueM cfg st .medium id distances
  let st := r.1
  let st :=
    if (cfg.attrs id).shouldQueueSubtreeLoad then
      { st with subtreeLoadQueue := st.subtreeLoadQueue ++ [id] }
    else st
  (st,
    { allAreRenderable := isRenderableM st id
      anyWereRenderedLastFrame :=
        lastFrameSelectionState.resultIsRendered cfg.lastFrame
      notYetRenderableCount := if isRenderableM st id then 0 else 1 })

/-- _renderInnerTile (lines 1787-1810): mark the children non-rendered,
record Rendered, push on the render list. -/
def renderInnerTileM (cfg : TravConfig) (fuel : Nat) (id : Nat)
    (st : TravState) : TravState × TraversalDetails :=
  let lastFrameSelectionState := st.sel id
  let st := markChildrenNonRenderedM cfg cfg.lastFrame fuel id st
  let st := { st with
    sel := updateSel st.sel id ⟨cfg.currentFrame, .rendered, false⟩,
    renderList := st.renderList ++ [id] }
  (st,
    { allAreRenderable := isRenderableM st id
      anyWereRenderedLastFrame :=
        lastFrameSelectionState.resultIsRendered cfg.lastFrame
      notYetRenderableCount := if isRenderableM st id then 0 else 1 })

/-- _refineToNothing (lines 1812-1838): no descendant made the render list;
record Refined; for Add refinement report the tile's own details, otherwise
mark it non-rendered and return default details. -/
def refineToNothingM (cfg : TravConfig) (id : Nat) (st : TravState)
    (areChildrenRenderable : Bool) : TravState × TraversalDetails :=
  let lastFrameSelectionState := st.sel id
  let out :=
    if (cfg.attrs id).refineAdd then
      (st,
        ({ allAreRenderable := isRenderableM st id
           anyWereRenderedLastFrame :=
             lastFrameSelectionState.resultIsRendered cfg.lastFrame
           notYetRenderableCount :=
             if areChildrenRenderable then 0 else 1 } : TraversalDetails))
    else (markTileNonRenderedM cfg.lastFrame id st, ({} : TraversalDetails))
  let st := { out.1 with
    sel := updateSel out.1.sel id ⟨cfg.currentFrame, .refined, false⟩ }
  (st, out.2)

/-- _loadAndRenderAdditiveRefinedTile (lines 1840-1860): with Add
refinement, render this tile in addition to its children and enqueue it on
Medium; returns whether the tile was queued. -/
def loadAndRenderAdditiveRefinedTileM (cfg : TravConfig) (id : Nat)
    (distances : List ℚ) (st : TravState) : TravState × Bool :=
  if (cfg.attrs id).refineAdd then
    let st := { st with renderList := st.renderList ++ [id] }
    ((addTileToLoadQueueM cfg st .medium id distances).1, true)
  else (st, false)

/-- _queueLoadOfChildrenRequiredForRefinement (lines 1689-1729): under
forbidHoles, enqueue every non-renderable non-external child on Medium
(with the parent's distances), progressing the parent's loaded content and
marking the child visited on the way; returns whether any child is still
being waited for. -/
def queueLoadOfChildrenRequiredForRefinementM (cfg : TravConfig) (id : Nat)
    (distances : List ℚ) (st : TravState) : TravState × Bool :=
  if cfg.opts.forbidHoles then
    (cfg.childrenOf id).foldl
      (fun (acc : TravState × Bool) c =>
        let st := acc.1
        if !isRenderableM st c && !(cfg.attrs c).isExternalTileset then
          let st :=
            if st.load id = .contentLoaded then
              { st with load := updateLoad st.load id .doneLoading }
            else st
          let st := { st with lru := st.lru.filter (· ≠ c) ++ [c] }
          ((addTileToLoadQueueM cfg st .medium c distances).1, true)
        else (st, acc.2))
      (st, false)
  else (st, false)

/-- _kickDescendantsAndRenderTile (lines 1864-1956): mark the rendered
descendants and their ancestors up to this tile kicked, truncate the render
list, render this tile (for Replace refinement), and — when the tile was
not both rendered last frame and renderable, and too many descendants are
not yet renderable — rewind the three load queues to their saved sizes and
enqueue this tile on Medium instead (unless already queued).  Returns the
updated state, the adjusted details and the `queuedForLoad` flag. -/
def kickDescendantsAndRenderTileM (cfg : TravConfig) (id : Nat)
    (st : TravState) (details : TraversalDetails)
    (firstRenderedDescendantIndex loadIndexLow loadIndexMedium loadIndexHigh :
      Nat)
    (queuedForLoad : Bool) (distances : List ℚ) :
    TravState × TraversalDetails × Bool :=
  let lastFrameSelectionState := st.sel id
  let slice := st.renderList.drop firstRenderedDescendantIndex
  let keptRenderList := st.renderList.take firstRenderedDescendantIndex
  let st1 := { st with
    sel := updateSel
      (markKicked cfg.parent id cfg.currentFrame cfg.kickFuel slice st.sel)
      id ⟨cfg.currentFrame, .rendered, false⟩
    renderList :=
      if (cfg.attrs id).refineAdd then keptRenderList
      else keptRenderList ++ [id] }
  let wasRenderedLastFrame :=
    lastFrameSelectionState.resultIsRendered cfg.lastFrame
  -- Tile::isRenderable reads only the load state, which the updates above
  -- leave untouched, so it is evaluated against the incoming state.
  let wasReallyRenderedLastFrame := wasRenderedLastFrame && isRenderableM st id
  if !wasReallyRenderedLastFrame &&
      decide (cfg.opts.loadingDescendantLimit < details.notYetRenderableCount)
  then
    let st2 := { st1 with
      loadQueueLow := st1.loadQueueLow.take loadIndexLow
      loadQueueMedium := st1.loadQueueMedium.take loadIndexMedium
      loadQueueHigh := st1.loadQueueHigh.take loadIndexHigh }
    let st3 :=
      if !queuedForLoad then
        (addTileToLoadQueueM cfg st2 .medium id distances).1
      else st2
    (st3,
      { allAreRenderable := isRenderableM st3 id
        anyWereRenderedLastFrame := wasRenderedLastFrame
        notYetRenderableCount := if isRenderableM st3 id then 0 else 1 },
      true)
  else
    (st1,
      { details with
        allAreRenderable := isRenderableM st1 id
        anyWereRenderedLastFrame := wasRenderedLastFrame },
      queuedForLoad)

/-! ## The traversal (Tileset.cpp lines 1505-1647 and 1964-2154) -/

/-- Child aggregation of _visitVisibleChildrenNearToFar (lines 2146-2150):
AND of allAreRenderable, OR of anyWereRenderedLastFrame, SUM of
notYetRenderableCount. -/
def aggregateDetails (a b : TraversalDetails) : TraversalDetails :=
  { allAreRenderable := a.allAreRenderable && b.allAreRenderable
    anyWereRenderedLastFrame :=
      a.anyWereRenderedLastFrame || b.anyWereRenderedLastFrame
    notYetRenderableCount :=
      a.notYetRenderableCount + b.notYetRenderableCount }

/-- How the render-or-refine decision of _visitTile (lines 1994-2048)
resolves: render this tile now and return; fall through to refinement with
`ancestorMeetsSse` forced (the blocker case); or refine directly. -/
inductive VisitBranch
  | renderNow
  | fallThrough
  | refineDirect
deriving DecidableEq

/-- _visitTileIfNeeded (lines 1505-1647) with _visitTile (lines 1964-2124)
and _visitVisibleChildrenNearToFar (lines 2126-2154) inlined at their call
sites.  `fuel` only bounds the tree recursion: with `fuel` larger than the
subtree depth the embedding follows the source exactly.
Content progression (`processLoadedContent` plus
`createImplicitChildrenIfNeeded`) is modelled from the spec (§4.1.2 step 1)
as the ContentLoaded → Done transition — implicit children are part of the
static `childrenOf` map — and `tile.update` (raster-overlay bookkeeping,
outside the provided sources) has no effect on selection or queues. -/
def visitTileIfNeededM (cfg : TravConfig) :
    Nat → Nat → Bool → Nat → TravState → TravState × TraversalDetails
  | 0, _, _, _, st => (st, {})
  | fuel + 1, depth, ancestorMeetsSse, id, st =>
    let st :=
      if st.load id = .contentLoaded then
        { st with load := updateLoad st.load id .doneLoading }
      else st
    let st := { st with lru := st.lru.filter (· ≠ id) ++ [id] }
    let culled0 := (cfg.attrs id).excluded
    let shouldVisit0 := !(cfg.attrs id).excluded
    let visibleAny :=
      (List.range cfg.geom.numFrustums).any
        (fun i => cfg.geom.visibleFromCamera i id)
    let culled1 := culled0 || !visibleAny
    let shouldVisit1 :=
      shouldVisit0 && (visibleAny || !cfg.opts.enableFrustumCulling)
    let distances := computeDistances cfg id
    let isFogCulled :=
      shouldVisit1 &&
        (List.range cfg.geom.numFrustums).all
          (fun i =>
            !isVisibleInFogM cfg.geom (distances.getD i 0)
              (cfg.geom.fogDensity i))
    let culled := culled1 || isFogCulled
    let shouldVisit :=
      shouldVisit1 && !(isFogCulled && cfg.opts.enableFogCulling)
    if !shouldVisit then
      let st := markTileAndChildrenNonRenderedM cfg cfg.lastFrame fuel id st
      let st := { st with
        sel := updateSel st.sel id ⟨cfg.currentFrame, .culled, false⟩ }
      let st :=
        if cfg.opts.preloadSiblings then
          (addTileToLoadQueueM cfg st .low id distances).1
        else st
      ({ st with tilesCulled := st.tilesCulled + 1 }, {})
    else
      -- _visitTile (lines 1964-2124)
      let st := { st with
        tilesVisited := st.tilesVisited + 1
        maxDepthVisited := max st.maxDepthVisited depth }
      let st :=
        if culled then { st with culledTilesVisited := st.culledTilesVisited + 1 }
        else st
      if (cfg.childrenOf id).isEmpty then renderLeafM cfg id distances st
      else
        let unconditionallyRefine := (cfg.attrs id).unconditionallyRefine
        let meetsSse :=
          meetsSseM cfg.geom cfg.opts (cfg.attrs id).geometricError distances
            culled
        let qres := queueLoadOfChildrenRequiredForRefinementM cfg id distances st
        let st := qres.1
        let waitingForChildren := qres.2
        let branch :=
          if !unconditionallyRefine &&
              (meetsSse || ancestorMeetsSse || waitingForChildren) then
            if shouldRenderThisTileM st id cfg.lastFrame then
              VisitBranch.renderNow
            else VisitBranch.fallThrough
          else VisitBranch.refineDirect
        if branch = .renderNow then
          let st :=
            if meetsSse && !ancestorMeetsSse then
              (addTileToLoadQueueM cfg st .medium id distances).1
            else st
          renderInnerTileM cfg fuel id st
        else
          let childAncestorMeetsSse :=
            if branch = .fallThrough then true else ancestorMeetsSse
          let st :=
            if branch = .fallThrough && meetsSse then
              (addTileToLoadQueueM cfg st .high id distances).1
            else st
          -- Refine! (lines 2050-2124)
          let ares := loadAndRenderAdditiveRefinedTileM cfg id distances st
          let st := ares.1
          let queuedForLoad := ares.2
          let firstRenderedDescendantIndex := st.renderList.length
          let loadIndexLow := st.loadQueueLow.length
          let loadIndexMedium := st.loadQueueMedium.length
          let loadIndexHigh := st.loadQueueHigh.length
          let cres :=
            (cfg.childrenOf id).foldl
              (fun (acc : TravState × TraversalDetails) c =>
                let r :=
                  visitTileIfNeededM cfg fuel (depth + 1) childAncestorMeetsSse
                    c acc.1
                (r.1, aggregateDetails acc.2 r.2))
              (st, {})
          let st := cres.1
          let traversalDetails := cres.2
          if st.renderList.length = firstRenderedDescendantIndex then
            refineToNothingM cfg id st traversalDetails.allAreRenderable
          else if !traversalDetails.allAreRenderable &&
              !traversalDetails.anyWereRenderedLastFrame then
            let k := kickDescendantsAndRenderTileM cfg id st traversalDetails
              firstRenderedDescendantIndex loadIndexLow loadIndexMedium
              loadIndexHigh queuedForLoad distances
            let st := k.1
            let st :=
              if cfg.opts.preloadAncestors && !k.2.2 then
                (addTileToLoadQueueM cfg st .low id distances).1
              else st
            (st, k.2.1)
          else
            let st :=
              if !(cfg.attrs id).refineAdd then
                markTileNonRenderedM cfg.lastFrame id st
              else st
            let st := { st with
              sel := updateSel st.sel id ⟨cfg.currentFrame, .refined, false⟩ }
            let st :=
              if cfg.opts.preloadAncestors && !queuedForLoad then
                (addTileToLoadQueueM cfg st .low id distances).1
              else st
            (st, traversalDetails)

/-- The traversal part of Tileset::updateView (lines 326-393): clear the
result lists and queues, then visit the root.  Credit accounting, eviction
and queue dispatch (which add no queue entries) are separate functions
modelled below. -/
def updateViewM (cfg : TravConfig) (fuel rootId : Nat) (sel : SelMap)
    (load : Nat → LoadStateM) (lru : List Nat) : TravState :=
  let st : TravState :=
    { renderList := []
      noLongerRender := []
      loadQueueHigh := []
      loadQueueMedium := []
      loadQueueLow := []
      subtreeLoadQueue := []
      sel := sel
      load := load
      lru := lru
      tilesVisited := 0
      culledTilesVisited := 0
      tilesCulled := 0
      maxDepthVisited := 0 }
  (visitTileIfNeededM cfg fuel 0 false rootId st).1

/-! ## processQueue (Tileset.cpp lines 2443-2460) -/

/-- Modelled from the spec: Tile::loadContent (§4.2 loadTileContent; Tile.cpp
is not among the provided sources): when the tile is Unloaded it transitions
to ContentLoading and a load starts (notifyTileStartLoading increments
loadsInProgress, Tileset.cpp line 440); any other state is a no-op for the
dispatch count.  Returns the updated load map, the updated in-flight count
and whether a load started. -/
def loadContentM (load : Nat → LoadStateM) (count : Nat) (t : Nat) :
    (Nat → LoadStateM) × Nat × Bool :=
  if load t = .unloaded then (updateLoad load t .contentLoading, count + 1, true)
  else (load, count, false)

/-- The dispatch loop of Tileset::processQueue (lines 2453-2459): call
loadContent on each record in order, stopping after the call that brings
the in-flight count to the limit.  Returns the records whose load actually
started, the final load map and the final count. -/
def dispatchLoop (limit : Nat) :
    List LoadRecordM → (Nat → LoadStateM) → Nat →
      List LoadRecordM × (Nat → LoadStateM) × Nat
  | [], load, count => ([], load, count)
  | r :: rest, load, count =>
    let l := loadContentM load count r.tileId
    if limit ≤ l.2.1 then
      ((if l.2.2 then [r] else []), l.1, l.2.1)
    else
      let next := dispatchLoop limit rest l.1 l.2.1
      ((if l.2.2 then r :: next.1 else next.1), next.2)

/-- Result of processQueue: the records whose loads were dispatched, the
queue after the in-place sort, and the updated load map and count. -/
structure ProcessQueueOut where
  dispatched : List LoadRecordM
  queueAfter : List LoadRecordM
  load : Nat → LoadStateM
  loadsInProgress : Nat

/-- Tileset::processQueue (lines 2443-2460): bail out when the in-flight
count already reached the limit, otherwise sort the queue ascending by
priority (LoadRecord::operator<) and run the dispatch loop. -/
def processQueueM (queue : List LoadRecordM) (load : Nat → LoadStateM)
    (loadsInProgress maximumLoadsInProgress : Nat) : ProcessQueueOut :=
  if maximumLoadsInProgress ≤ loadsInProgress then
    ⟨[], queue, load, loadsInProgress⟩
  else
    let sorted := queue.insertionSort (fun a b => a.priority ≤ b.priority)
    let d := dispatchLoop maximumLoadsInProgress sorted load loadsInProgress
    ⟨d.1, sorted, d.2.1, d.2.2⟩

/-! ## _unloadCachedTiles (Tileset.cpp lines 2172-2194) -/

/-- A tile as seen by the eviction walk: whether it is the root, whether
Tile::unloadContent would succeed (it returns false while the tile still
holds references — content loading or raster mapping in flight, §4.2), and
its accounted byte size. -/
structure CachedTileM where
  tileId : Nat
  isRoot : Bool
  unloadable : Bool
  bytes : Int
deriving DecidableEq

/-- Why the eviction walk stopped. -/
inductive UnloadStop
  | budgetMet
  | reachedRoot
  | reachedEnd
deriving DecidableEq

/-- Tileset::_unloadCachedTiles (lines 2172-2194): walk the LRU list from
the head while the total accounted bytes exceed the budget; stop at a null
tile or at the root; unload each visited tile, unlinking it when
unloadContent succeeds and leaving it in place when it fails.  Returns the
remaining list, the removed tiles in removal order, the final total and the
stop reason. -/
def unloadCachedTilesM (maxBytes : Int) :
    List CachedTileM → Int →
      List CachedTileM × List CachedTileM × Int × UnloadStop
  | [], total =>
    if maxBytes < total then ([], [], total, .reachedEnd)
    else ([], [], total, .budgetMet)
  | t :: rest, total =>
    if ¬(maxBytes < total) then (t :: rest, [], total, .budgetMet)
    else if t.isRoot then (t :: rest, [], total, .reachedRoot)
    else if t.unloadable then
      let r := unloadCachedTilesM maxBytes rest (total - t.bytes)
      (r.1, t :: r.2.1, r.2.2)
    else
      let r := unloadCachedTilesM maxBytes rest total
      (t :: r.1, r.2.1, r.2.2)

/-! ## Ion token refresh (Tileset.cpp lines 1264-1392) -/

/-- The slice of TileContentLoadResult consulted by the failure path. -/
structure IonContentM where
  httpStatusCode : Nat
deriving DecidableEq

/-- A loaded tile as seen by the token-refresh controller: its context, its
load state and its content (absent when the tile has no content). -/
structure IonTileM where
  ctx : Nat
  state : LoadStateM
  content : Option IonContentM
deriving DecidableEq

/-- Replace the value of the first "Authorization" header, appending one
when none exists (updateContextWithNewToken, lines 1297-1306). -/
def setAuthHeader : List (String × String) → String → List (String × String)
  | [], v => [("Authorization", v)]
  | h :: t, v =>
    if h.1 = "Authorization" then (h.1, v) :: t else h :: setAuthHeader t v

/-- updateContextWithNewToken (lines 1276-1308).  The response JSON is
abstracted to `Option String`: `none` for a parse error (the function logs
and returns false), `some tok` for the parsed `accessToken` (the empty
string when the field is missing, via getStringOrDefault).  Returns the
updated headers and the success flag. -/
def updateContextWithNewTokenM (headers : List (String × String))
    (parsed : Option String) : List (String × String) × Bool :=
  match parsed with
  | none => (headers, false)
  | some tok => (setAuthHeader headers ("Bearer " ++ tok), true)

/-- Whether the refresh counts as failed in _handleTokenRefreshResponse
(lines 1316-1320): failed unless a response arrived with a 2xx status and
the endpoint JSON parsed. -/
def refreshFailed (resp : Option (Nat × Option String)) : Bool :=
  match resp with
  | some (code, parsed) =>
    if 200 ≤ code ∧ code < 300 then !(updateContextWithNewTokenM [] parsed).2
    else true
  | none => true

/-- The tile filter of _handleTokenRefreshResponse (lines 1329-1341): same
context, FailedTemporarily, and content with HTTP status 401. -/
def ionTileAffected (ctxId : Nat) (t : IonTileM) : Bool :=
  decide (t.ctx = ctxId) && decide (t.state = .failedTemporarily) &&
    (match t.content with
     | some c => decide (c.httpStatusCode = 401)
     | none => false)

/-- Tileset::_handleTokenRefreshResponse (lines 1310-1345): compute the
failure flag (updating the Authorization header on a parsed 2xx response),
then walk the loaded tiles and mark every affected one permanently failed
(refresh failed) or return it to Unloaded (refresh succeeded;
markPermanentlyFailed and unloadContent are modelled from the spec §4.5 as
the Failed and Unloaded states).  Clears the single-flight flag. -/
def handleTokenRefreshResponseM (ctxId : Nat)
    (headers : List (String × String)) (resp : Option (Nat × Option String))
    (tiles : List IonTileM) :
    List IonTileM × List (String × String) × Bool :=
  let upd :=
    match resp with
    | some (code, parsed) =>
      if 200 ≤ code ∧ code < 300 then
        let u := updateContextWithNewTokenM headers parsed
        (u.1, !u.2)
      else (headers, true)
    | none => (headers, true)
  let failed := upd.2
  let tiles := tiles.map (fun t =>
    if ionTileAffected ctxId t then
      if failed then { t with state := .failed } else { t with state := .unloaded }
    else t)
  (tiles, upd.1, failed)

/-- State of the token-refresh controller across events. -/
structure IonControllerState where
  isRefreshingIonToken : Bool
  refreshRequestsInFlight : Nat
  tiles : List IonTileM
  headers : List (String × String)

/-- Events driving the controller: a tile load completing in failure (with
the content's HTTP status, if any, and the tile's context), the refresh
response arriving on the main thread, or the refresh continuation
faulting. -/
inductive IonEvent
  | tileFailed (contentStatus : Option Nat) (ctx : Nat)
  | refreshCompleted (ctx : Nat) (resp : Option (Nat × Option String))
  | refreshFaulted
deriving DecidableEq

/-- One controller step.  `tileFailed` is Tileset::_onIonTileFailed
(lines 1347-1392): give up without content, a non-401 status or no ion
asset id; otherwise start a refresh request unless one is already in
flight (the `_isRefreshingIonToken` single-flight flag).
`refreshCompleted`/`refreshFaulted` are the two continuations
(lines 1374-1388), which only run while a request is in flight. -/
def ionStep (hasIonAssetID : Bool) (st : IonControllerState) :
    IonEvent → IonControllerState
  | .tileFailed contentStatus _ =>
    match contentStatus with
    | none => st
    | some code =>
      if code ≠ 401 then st
      else if !hasIonAssetID then st
      else if !st.isRefreshingIonToken then
        { st with
          isRefreshingIonToken := true
          refreshRequestsInFlight := st.refreshRequestsInFlight + 1 }
      else st
  | .refreshCompleted ctx resp =>
    if st.refreshRequestsInFlight = 0 then st
    else
      let h := handleTokenRefreshResponseM ctx st.headers resp st.tiles
      { isRefreshingIonToken := false
        refreshRequestsInFlight := st.refreshRequestsInFlight - 1
        tiles := h.1
        headers := h.2.1 }
  | .refreshFaulted =>
    if st.refreshRequestsInFlight = 0 then st
    else
      { st with
        isRefreshingIonToken := false
        refreshRequestsInFlight := st.refreshRequestsInFlight - 1 }

/-- Run the controller over a list of events. -/
def ionRun (hasIonAssetID : Bool) (st : IonControllerState)
    (evs : List IonEvent) : IonControllerState :=
  evs.foldl (ionStep hasIonAssetID) st

/-- Initial controller state: flag clear, nothing in flight. -/
def ionInit (tiles : List IonTileM) (headers : List (String × String)) :
    IonControllerState :=
  ⟨false, 0, tiles, headers⟩

/-! ## C1: composite bound violations -/

/-- A composite payload with a valid outer header (magic cmpt, version 1,
byteLength 40 = payload size, tilesLength 2) whose first inner tile (12
bytes, offsets 16-27) fits the bound but whose second inner header declares
byteLength 100, extending past the composite's byteLength. -/
def cmptC1data : List Nat :=
  [99, 109, 112, 116, 1, 0, 0, 0, 40, 0, 0, 0, 2, 0, 0, 0,
   97, 97, 97, 97, 1, 0, 0, 0, 12, 0, 0, 0,
   98, 98, 98, 98, 1, 0, 0, 0, 100, 0, 0, 0]

/-- C1 counterexample: on `cmptC1data` the outer header is valid and the
second inner tile violates the composite's bound, yet CompositeContent::load
does not return a null content result — the loop `break`s and the single
inner tile read before the violation is returned (here through a dispatch
that loads it successfully), contradicting the claim that any violation
yields a null result. -/
theorem C1_counterexample :
    cmptOuterHeaderValid cmptC1data = true ∧
    cmptBoundViolated cmptC1data = true ∧
    (cmptLoad (fun _ => some ⟨some [0]⟩) cmptC1data).content ≠ none := by
  refine ⟨by decide, by decide, by decide⟩

/-- C1 (amended): for every composite input whose outer header is valid but
in which reading some inner tile violates the composite's byteLength bound,
CompositeContent::load logs a warning and stops reading at the violation;
the result is null when no inner tile was read before the violation
(otherwise it is the merge of the inner tiles read so far). -/
theorem C1_boundViolation_warns
    (dispatch : List Nat → Option TileContentLoadResultM) (data : List Nat)
    (hvalid : cmptOuterHeaderValid data = true)
    (hviol : cmptBoundViolated data = true) :
    (cmptLoad dispatch data).warned = true ∧
      (cmptInnerSlices data = [] → (cmptLoad dispatch data).content = none) := by
  simp only [cmptOuterHeaderValid, Bool.and_eq_true, decide_eq_true_eq] at hvalid
  obtain ⟨⟨⟨h1, h2⟩, h3⟩, h4⟩ := hvalid
  simp only [cmptBoundViolated] at hviol
  simp only [cmptInnerSlices]
  rw [cmptLoad, if_neg (by omega), if_neg (not_not_intro h2),
    if_neg (not_not_intro h3), if_neg (by omega)]
  constructor
  · simp [hviol]
  · intro hsl
    simp [hsl, combineInnerResults]

/-- A composite whose outer header is valid (byteLength 20 = payload size,
tilesLength 1) but whose single inner header (12 bytes needed at offset 16)
would extend past byteLength 20: the violation occurs before any inner tile
is read. -/
def cmptC1WitnessData : List Nat :=
  [99, 109, 112, 116, 1, 0, 0, 0, 20, 0, 0, 0, 1, 0, 0, 0, 0, 0, 0, 0]

/-- Witness for C1_boundViolation_warns at a concrete violating input. -/
theorem C1_boundViolation_warns_witness :
    (cmptLoad (fun _ => none) cmptC1WitnessData).warned = true ∧
      (cmptLoad (fun _ => none) cmptC1WitnessData).content = none := by
  have h := C1_boundViolation_warns (fun _ => none) cmptC1WitnessData
    (by decide) (by decide)
  exact ⟨h.1, h.2 (by decide)⟩

/-! ## C8: content dispatch order -/

/-- C8 (amended): for payloads of at least four bytes the dispatch follows
exactly the claimed order — registered magic (the first four bytes as
ASCII), then registered MIME type (content type before the semicolon), then
registered lowercase URL extension, then the JSON sniff on the first
non-whitespace byte, else a null "not understood" result. -/
theorem C8_dispatch_order (reg : LoaderRegistry) (data : List Char)
    (contentType url : String) (h : 4 ≤ data.length) :
    createContent reg data contentType url =
      claimDispatch reg data contentType url := by
  simp [createContent, claimDispatch, getMagic, h]

/-- Witness for C8_dispatch_order on a four-byte payload. -/
theorem C8_dispatch_order_witness :
    4 ≤ ("abcd".data : List Char).length ∧
      createContent ⟨[("json", 1)], [("application/x", 2)], []⟩ "abcd".data
          "application/x" "tile.bin" =
        claimDispatch ⟨[("json", 1)], [("application/x", 2)], []⟩ "abcd".data
          "application/x" "tile.bin" :=
  ⟨by decide, C8_dispatch_order _ _ _ _ (by decide)⟩

/-- C8 counterexample: on a one-byte payload the code looks up the literal
magic key "json" (`getMagic(...).value_or("json")`) and selects the JSON
loader even though no four-byte magic exists and the MIME type matches a
different registered loader, contradicting the claimed fixed order (which
would select the MIME-type loader). -/
theorem C8_counterexample :
    createContent ⟨[("json", 1)], [("application/x", 2)], []⟩ ['a']
        "application/x" "tile.bin" = .loader 1 ∧
      claimDispatch ⟨[("json", 1)], [("application/x", 2)], []⟩ ['a']
        "application/x" "tile.bin" = .loader 2 := by
  refine ⟨by decide, by decide⟩

/-! ## C3: the eviction walk -/

/-- C3 (amended): the eviction walk never unloads the root or a tile that
still carries references (unloadContent fails on those; referenced tiles
are skipped, not stopped at); the walk's final total equals the starting
total minus the removed bytes; and afterwards either the total is within
the budget or the walk reached the root or the end of the LRU list. -/
theorem C3_unload_pass (maxBytes : Int) (list : List CachedTileM)
    (total : Int) :
    (∀ t ∈ (unloadCachedTilesM maxBytes list total).2.1,
        t.unloadable = true ∧ t.isRoot = false) ∧
      (unloadCachedTilesM maxBytes list total).2.2.1 =
        total - (((unloadCachedTilesM maxBytes list total).2.1.map
          (·.bytes)).sum) ∧
      ((unloadCachedTilesM maxBytes list total).2.2.1 ≤ maxBytes ∨
        (unloadCachedTilesM maxBytes list total).2.2.2 = .reachedRoot ∨
        (unloadCachedTilesM maxBytes list total).2.2.2 = .reachedEnd) := by
  induction list generalizing total with
  | nil =>
    rw [unloadCachedTilesM]
    by_cases h : maxBytes < total
    · rw [if_pos h]
      exact ⟨by simp, by simp, Or.inr (Or.inr rfl)⟩
    · rw [if_neg h]
      exact ⟨by simp, by simp, Or.inl (by dsimp only; omega)⟩
  | cons t rest ih =>
    rw [unloadCachedTilesM]
    by_cases h1 : maxBytes < total
    · rw [if_neg (not_not_intro h1)]
      by_cases h2 : t.isRoot = true
      · rw [if_pos h2]
        exact ⟨by simp, by simp, Or.inr (Or.inl rfl)⟩
      · rw [if_neg h2]
        by_cases h3 : t.unloadable = true
        · rw [if_pos h3]
          obtain ⟨ihA, ihB, ihC⟩ := ih (total - t.bytes)
          refine ⟨?_, ?_, ?_⟩
          · intro x hx
            rcases List.mem_cons.mp hx with rfl | hx
            · exact ⟨h3, by simpa using h2⟩
            · exact ihA x hx
          · show (unloadCachedTilesM maxBytes rest (total - t.bytes)).2.2.1 =
              total - (List.map _ (t :: _)).sum
            rw [List.map_cons, List.sum_cons, ihB]
            omega
          · exact ihC
        · rw [if_neg h3]
          exact ih total
    · rw [if_pos h1]
      exact ⟨by simp, by simp, Or.inl (by dsimp only; omega)⟩

/-- C3 counterexample: a referenced (non-unloadable, non-root) tile at the
head of the LRU list does not stop the walk — the pass skips it and
unloads the tile behind it, contradicting the claim that the walk stops at
the first tile that is the root or currently referenced. -/
theorem C3_counterexample :
    (⟨1, false, false, 100⟩ : CachedTileM).unloadable = false ∧
      (unloadCachedTilesM 50
          [⟨1, false, false, 100⟩, ⟨2, false, true, 100⟩] 200).2.1 =
        [⟨2, false, true, 100⟩] := by
  refine ⟨by decide, by decide⟩

/-! ## C10: content gating in addTileToLoadQueue -/

/-- C10: addTileToLoadQueue never pushes a tile without loadable content —
one whose string tile ID is empty, or an implicit-tiling tile whose loaded
subtree reports content unavailable; such a tile in the Unloaded state is
instead moved directly to ContentLoaded.  An implicit-tiling tile whose
subtree is not yet loaded is neither enqueued nor transitioned.  The
well-formedness hypothesis records that implicit-tiling traversal info only
arises for quadtree/octree tile IDs. -/
theorem C10_no_content_gating (geom : GeomOracle) (a : TileAttrs)
    (ld : LoadStateM) (tileId : Nat) (distances : List ℚ)
    (queue : List LoadRecordM)
    (hwf : (a.usingImplicitQuadtreeTiling || a.usingImplicitOctreeTiling) =
        true → a.tileID = .quad ∨ a.tileID = .oct) :
    ((a.tileID = .url "" ∨
        ((a.usingImplicitQuadtreeTiling || a.usingImplicitOctreeTiling) =
            true ∧ a.subtreeLoaded = true ∧ a.contentAvailableFlag = false)) →
      (addTileToLoadQueueCore geom a ld tileId distances queue).1 = queue ∧
        (ld = .unloaded →
          (addTileToLoadQueueCore geom a ld tileId distances queue).2.1 =
            .contentLoaded)) ∧
    (((a.usingImplicitQuadtreeTiling || a.usingImplicitOctreeTiling) = true ∧
        a.subtreeLoaded = false) →
      (addTileToLoadQueueCore geom a ld tileId distances queue).1 = queue ∧
        (addTileToLoadQueueCore geom a ld tileId distances queue).2.1 = ld) := by
  rw [addTileToLoadQueueCore]
  by_cases hgate : ld = .unloaded ∨ a.rasterNeedsLoading = true
  · rw [if_pos hgate]
    constructor
    · rintro (hurl | ⟨himp, hsub, hcav⟩)
      · have himp : (a.usingImplicitQuadtreeTiling ||
            a.usingImplicitOctreeTiling) = false := by
          cases hq : (a.usingImplicitQuadtreeTiling ||
            a.usingImplicitOctreeTiling)
          · rfl
          · rcases hwf hq with h | h <;> rw [hurl] at h <;> cases h
        exact ⟨by simp [himp, hurl], fun hld => by simp [himp, hurl, hld]⟩
      · exact ⟨by simp [himp, hsub, hcav],
          fun hld => by simp [himp, hsub, hcav, hld]⟩
    · rintro ⟨himp, hsub⟩
      exact ⟨by simp [himp, hsub], by simp [himp, hsub]⟩
  · rw [if_neg hgate]
    push_neg at hgate
    exact ⟨fun _ => ⟨rfl, fun h => absurd h hgate.1⟩, fun _ => ⟨rfl, rfl⟩⟩

/-- Witness for C10_no_content_gating: an Unloaded tile with an empty
string ID is not enqueued and moves straight to ContentLoaded; an
implicit-tiling tile without a loaded subtree is untouched. -/
theorem C10_no_content_gating_witness :
    (addTileToLoadQueueCore
        ⟨1, fun _ _ => true, fun _ _ => 0, fun _ _ _ => 0, fun _ => 0,
          fun _ => false, fun _ _ => none⟩
        ⟨1, false, false, .url "", false, false, false, false, false, false,
          false, false⟩
        .unloaded 3 [0] []).1 = [] ∧
      (addTileToLoadQueueCore
        ⟨1, fun _ _ => true, fun _ _ => 0, fun _ _ _ => 0, fun _ => 0,
          fun _ => false, fun _ _ => none⟩
        ⟨1, false, false, .url "", false, false, false, false, false, false,
          false, false⟩
        .unloaded 3 [0] []).2.1 = .contentLoaded := by
  have h := (C10_no_content_gating
    ⟨1, fun _ _ => true, fun _ _ => 0, fun _ _ _ => 0, fun _ => 0,
      fun _ => false, fun _ _ => none⟩
    ⟨1, false, false, .url "", false, false, false, false, false, false,
      false, false⟩
    .unloaded 3 [0] [] (by intro h; cases h)).1 (Or.inl rfl)
  exact ⟨h.1, h.2 rfl⟩

/-! ## C4: the enqueue gate -/

/-- C4 (amended): every enqueue performed by addTileToLoadQueue is gated by
the check that the tile's load state is Unloaded or one of its raster
overlays needs loading, and a single call pushes at most one record; the
call never changes the load state of a tile it enqueues, which is why the
same tile can be enqueued more than once within one frame (see the
counterexample). -/
theorem C4_enqueue_gate (geom : GeomOracle) (a : TileAttrs)
    (ld : LoadStateM) (tileId : Nat) (distances : List ℚ)
    (queue : List LoadRecordM) :
    (¬(ld = .unloaded ∨ a.rasterNeedsLoading = true) →
      (addTileToLoadQueueCore geom a ld tileId distances queue).1 = queue) ∧
    ((addTileToLoadQueueCore geom a ld tileId distances queue).1 = queue ∨
      ((addTileToLoadQueueCore geom a ld tileId distances queue).1 =
          queue ++ [⟨tileId, computeLoadPriority geom tileId distances⟩] ∧
        (addTileToLoadQueueCore geom a ld tileId distances queue).2.1 = ld)) := by
  rw [addTileToLoadQueueCore]
  by_cases hgate : ld = .unloaded ∨ a.rasterNeedsLoading = true
  · rw [if_pos hgate]
    refine ⟨fun h => absurd hgate h, ?_⟩
    by_cases himp : (a.usingImplicitQuadtreeTiling ||
        a.usingImplicitOctreeTiling) = true
    · by_cases hsub : a.subtreeLoaded = true
      · by_cases hcav : a.contentAvailableFlag = true
        · right; simp [himp, hsub, hcav]
        · left; simp [himp, hsub, hcav]
      · left; simp [himp, hsub]
    · rw [Bool.not_eq_true] at himp
      by_cases hurl : (match a.tileID with
          | .url s => decide (s = "")
          | _ => false) = true
      · left; simp [himp, hurl]
      · rw [Bool.not_eq_true] at hurl
        right; simp [himp, hurl]
  · rw [if_neg hgate]
    exact ⟨fun _ => rfl, Or.inl rfl⟩

/-- Witness for C4_enqueue_gate: a tile already ContentLoading with no
raster needs is not enqueued, and an Unloaded tile with a URL is pushed
exactly once with its computed priority. -/
theorem C4_enqueue_gate_witness :
    ((addTileToLoadQueueCore
        ⟨0, fun _ _ => true, fun _ _ => 0, fun _ _ _ => 0, fun _ => 0,
          fun _ => false, fun _ _ => none⟩
        ⟨1, false, false, .url "a.b3dm", false, false, false, false, false,
          false, false, false⟩
        .contentLoading 3 [] []).1 = []) := by
  have h := (C4_enqueue_gate
    ⟨0, fun _ _ => true, fun _ _ => 0, fun _ _ _ => 0, fun _ => 0,
      fun _ => false, fun _ _ => none⟩
    ⟨1, false, false, .url "a.b3dm", false, false, false, false, false,
      false, false, false⟩
    .contentLoading 3 [] []).1
  exact h (by rintro (h | h) <;> cases h)

/-! ## C6: _meetsSse -/

/-- The screen-space errors _meetsSse computes, one per frustum index below
`min(frustums.size, distances.size)`. -/
def sseValues (geom : GeomOracle) (geometricError : ℚ)
    (distances : List ℚ) : List ℚ :=
  (List.range (min geom.numFrustums distances.length)).map
    (fun i => geom.screenSpaceError i geometricError (distances.getD i 0))

/-- Maximum of a rational list, as the claim's "maximum over the frustums";
`none` for the empty list. -/
def listMaxQ : List ℚ → Option ℚ
  | [] => none
  | x :: xs => some (xs.foldl max x)

/-- The source's `if (sse > largestSse) largestSse = sse` accumulation is a
fold of `max`. -/
theorem foldl_ifgt_eq_max (l : List ℚ) (a : ℚ) :
    l.foldl (fun acc sse => if acc < sse then sse else acc) a =
      l.foldl max a := by
  induction l generalizing a with
  | nil => rfl
  | cons x xs ih =>
    have hx : (if a < x then x else a) = max a x := by
      by_cases h : a < x
      · rw [if_pos h, max_eq_right h.le]
      · rw [if_neg h, max_eq_left (le_of_not_lt h)]
    rw [List.foldl_cons, List.foldl_cons, hx, ih]

/-- Pulling an element out of a max fold. -/
theorem foldl_max_pull (xs : List ℚ) (a x : ℚ) :
    xs.foldl max (max a x) = max a (xs.foldl max x) := by
  induction xs generalizing x with
  | nil => rfl
  | cons y ys ih =>
    rw [List.foldl_cons, List.foldl_cons, max_assoc, ih]

/-- A max fold dominates its initial value. -/
theorem le_foldl_max (xs : List ℚ) (a : ℚ) : a ≤ xs.foldl max a := by
  induction xs generalizing a with
  | nil => simp
  | cons y ys ih =>
    rw [List.foldl_cons]
    exact le_trans (le_max_left a y) (ih _)

/-- C6: for every visited tile, _meetsSse returns true iff — with
`largestSSE` the maximum over the frustums of
`frustum.computeScreenSpaceError(geometricError, distance)` — a non-culled
tile has `largestSSE < maximumScreenSpaceError`, and a culled-but-visited
tile has `largestSSE < culledScreenSpaceError` unless
`enforceCulledScreenSpaceError` is off, in which case the result is always
true for culled tiles.  Hypotheses: at least one frustum contributes (the
claim's maximum exists) and screen-space errors are nonnegative (the
source's fold starts at zero). -/
theorem C6_meetsSse (geom : GeomOracle) (opts : TOptions)
    (geometricError : ℚ) (distances : List ℚ) (culled : Bool) (L : ℚ)
    (hnonneg : ∀ x ∈ sseValues geom geometricError distances, 0 ≤ x)
    (hmax : listMaxQ (sseValues geom geometricError distances) = some L) :
    meetsSseM geom opts geometricError distances culled = true ↔
      (if culled = true then
        opts.enforceCulledScreenSpaceError = true →
          L < opts.culledScreenSpaceError
       else L < opts.maximumScreenSpaceError) := by
  have hfold : (sseValues geom geometricError distances).foldl
      (fun acc sse => if acc < sse then sse else acc) 0 = L := by
    rw [foldl_ifgt_eq_max]
    cases hsse : sseValues geom geometricError distances with
    | nil => rw [hsse] at hmax; cases hmax
    | cons x xs =>
      rw [hsse, listMaxQ] at hmax
      have hL : L = xs.foldl max x := by
        cases hmax
        rfl
      have hx0 : (0 : ℚ) ≤ x := hnonneg x (by rw [hsse]; exact List.mem_cons_self x xs)
      have hL0 : (0 : ℚ) ≤ L := le_trans hx0 (hL ▸ le_foldl_max xs x)
      rw [List.foldl_cons]
      have h0x : (max 0 x) = max x 0 := max_comm 0 x
      rw [show (max 0 x) = x from max_eq_right hx0, hL]
  rw [show meetsSseM geom opts geometricError distances culled =
      (if culled then
        !opts.enforceCulledScreenSpaceError ||
          decide (L < opts.culledScreenSpaceError)
       else decide (L < opts.maximumScreenSpaceError)) from by
    rw [meetsSseM]
    rw [show ((List.range (min geom.numFrustums distances.length)).map
        (fun i => geom.screenSpaceError i geometricError (distances.getD i 0)))
        = sseValues geom geometricError distances from rfl]
    rw [hfold]]
  cases culled with
  | false => simp
  | true =>
    by_cases he : opts.enforceCulledScreenSpaceError = true <;> simp [he]

/-- Witness for C6_meetsSse at a concrete single-frustum configuration. -/
theorem C6_meetsSse_witness :
    (meetsSseM
        ⟨1, fun _ _ => true, fun _ _ => 0, fun _ _ _ => (3 : ℚ), fun _ => 0,
          fun _ => false, fun _ _ => none⟩
        ⟨16, 64, true, false, false, false, true, true, 20⟩
        5 [1] false = true) ↔ ((3 : ℚ) < 16) := by
  exact C6_meetsSse _ _ 5 [1] false 3 (by decide) (by decide)

/-! ## C2: the descendant kick's queue rewind -/

/-- C2 (amended): _kickDescendantsAndRenderTile rewinds the three load
queues to their saved sizes exactly when the tile was NOT both rendered
last frame and currently renderable AND `notYetRenderableCount` exceeds
`loadingDescendantLimit`; in that case the tile itself is passed to
addTileToLoadQueue on the Medium queue when it was not already queued for
load, and the function reports the tile as queued.  When the condition
fails the queues are left untouched.  (The source condition does not
consult external-tileset content or the unconditionally-refine flag.) -/
theorem C2_kick_rewind (cfg : TravConfig) (id : Nat) (st : TravState)
    (details : TraversalDetails)
    (fIdx iL iM iH : Nat) (queued : Bool) (distances : List ℚ) :
    (((!((st.sel id).resultIsRendered cfg.lastFrame && isRenderableM st id) &&
        decide (cfg.opts.loadingDescendantLimit <
          details.notYetRenderableCount)) = true) →
      (kickDescendantsAndRenderTileM cfg id st details fIdx iL iM iH queued
            distances).1.loadQueueHigh = st.loadQueueHigh.take iH ∧
      (kickDescendantsAndRenderTileM cfg id st details fIdx iL iM iH queued
            distances).1.loadQueueLow = st.loadQueueLow.take iL ∧
      (queued = true →
        (kickDescendantsAndRenderTileM cfg id st details fIdx iL iM iH queued
            distances).1.loadQueueMedium = st.loadQueueMedium.take iM) ∧
      (queued = false →
        (kickDescendantsAndRenderTileM cfg id st details fIdx iL iM iH queued
            distances).1.loadQueueMedium =
          (addTileToLoadQueueCore cfg.geom (cfg.attrs id) (st.load id) id
            distances (st.loadQueueMedium.take iM)).1) ∧
      (kickDescendantsAndRenderTileM cfg id st details fIdx iL iM iH queued
          distances).2.2 = true) ∧
    (((!((st.sel id).resultIsRendered cfg.lastFrame && isRenderableM st id) &&
        decide (cfg.opts.loadingDescendantLimit <
          details.notYetRenderableCount)) = false) →
      (kickDescendantsAndRenderTileM cfg id st details fIdx iL iM iH queued
            distances).1.loadQueueHigh = st.loadQueueHigh ∧
      (kickDescendantsAndRenderTileM cfg id st details fIdx iL iM iH queued
            distances).1.loadQueueMedium = st.loadQueueMedium ∧
      (kickDescendantsAndRenderTileM cfg id st details fIdx iL iM iH queued
            distances).1.loadQueueLow = st.loadQueueLow ∧
      (kickDescendantsAndRenderTileM cfg id st details fIdx iL iM iH queued
          distances).2.2 = queued) := by
  constructor
  · intro hcond
    simp at hcond
    cases queued with
    | true => simp [kickDescendantsAndRenderTileM, hcond]
    | false => simp [kickDescendantsAndRenderTileM, hcond, addTileToLoadQueueM]
  · intro hcond
    have hc : ¬((!((st.sel id).resultIsRendered cfg.lastFrame &&
        isRenderableM st id) &&
        decide (cfg.opts.loadingDescendantLimit <
          details.notYetRenderableCount)) = true) := by
      intro h
      simp at h hcond
      exact absurd h.2 (not_lt.mpr (hcond h.1))
    simp only [kickDescendantsAndRenderTileM]
    rw [if_neg hc]
    exact ⟨rfl, rfl, rfl, rfl⟩

/-- Configuration for the C2 counterexample: tile 0 (not external content,
not unconditionally refining) with kicked descendant 5. -/
def c2cfg : TravConfig :=
  { childrenOf := fun _ => []
    parent := fun n => if n = 5 then some 0 else none
    attrs := fun _ =>
      ⟨1, false, false, .url "t.json", false, false, false, false, false,
        false, false, false⟩
    geom := ⟨0, fun _ _ => true, fun _ _ => 0, fun _ _ _ => 0, fun _ => 0,
      fun _ => false, fun _ _ => none⟩
    opts := ⟨16, 64, true, false, false, false, true, true, 1⟩
    currentFrame := 1
    lastFrame := 0
    kickFuel := 3 }

/-- Traversal state for the C2 counterexample: tile 0 was rendered last
frame and is renderable now; descendant 5 is in the render list; one
record sits on the Medium queue past the saved index 0. -/
def c2st : TravState :=
  { renderList := [5]
    noLongerRender := []
    loadQueueHigh := []
    loadQueueMedium := [⟨9, 1⟩]
    loadQueueLow := []
    subtreeLoadQueue := []
    sel := fun n =>
      if n = 0 then ⟨0, .rendered, false⟩
      else if n = 5 then ⟨1, .rendered, false⟩
      else ⟨0, .noResult, false⟩
    load := fun n => if n = 0 then .doneLoading else .unloaded
    lru := []
    tilesVisited := 0
    culledTilesVisited := 0
    tilesCulled := 0
    maxDepthVisited := 0 }

/-- Witness for C2_kick_rewind: with the tile not renderable and three
not-yet-renderable descendants against a limit of one, the Medium queue is
rewound to its saved size zero. -/
theorem C2_kick_rewind_witness :
    (kickDescendantsAndRenderTileM c2cfg 0
        { c2st with load := fun _ => .unloaded } ⟨false, false, 3⟩ 0 0 0 0
        true []).1.loadQueueMedium = [] := by
  have h := (C2_kick_rewind c2cfg 0 { c2st with load := fun _ => .unloaded }
    ⟨false, false, 3⟩ 0 0 0 0 true []).1 (by decide)
  rw [h.2.2.1 rfl]
  decide

/-- C2 counterexample: the claim's condition holds — notYetRenderableCount
(3) exceeds loadingDescendantLimit (1), the tile is not external content
and not unconditionally refining — yet the Medium queue is NOT rewound to
its saved size 0, because the tile was rendered last frame and is
renderable (the condition the source actually tests). -/
theorem C2_counterexample :
    ((c2cfg.attrs 0).isExternalTileset = false ∧
      (c2cfg.attrs 0).unconditionallyRefine = false ∧
      c2cfg.opts.loadingDescendantLimit <
        (⟨false, false, 3⟩ : TraversalDetails).notYetRenderableCount) ∧
    (kickDescendantsAndRenderTileM c2cfg 0 c2st ⟨false, false, 3⟩ 0 0 0 0
        false []).1.loadQueueMedium ≠ [] := by
  refine ⟨⟨by decide, by decide, by decide⟩, by decide⟩

/-! ## C9: sorted dispatch within the load budget -/

instance : IsTotal LoadRecordM (fun a b => a.priority ≤ b.priority) :=
  ⟨fun a b => le_total a.priority b.priority⟩

instance : IsTrans LoadRecordM (fun a b => a.priority ≤ b.priority) :=
  ⟨fun _ _ _ hab hbc => le_trans hab hbc⟩

/-- When every queued tile is Unloaded and the queue holds no duplicate
tiles, each loadContent call starts a load, so the dispatch loop issues
exactly the first `limit - count` records. -/
theorem dispatchLoop_spec (limit : Nat) (l : List LoadRecordM)
    (load : Nat → LoadStateM) (count : Nat)
    (hall : ∀ r ∈ l, load r.tileId = .unloaded)
    (hnd : (l.map (·.tileId)).Nodup) (hlt : count < limit) :
    (dispatchLoop limit l load count).1 = l.take (limit - count) := by
  induction l generalizing load count with
  | nil => simp [dispatchLoop]
  | cons r rest ih =>
    have hr : load r.tileId = .unloaded := hall r (List.mem_cons_self r rest)
    by_cases hstop : limit ≤ count + 1
    · have h1 : limit - count = 1 := by omega
      simp [dispatchLoop, loadContentM, hr, hstop, h1]
    · have hlt' : count + 1 < limit := by omega
      have hnotmem : r.tileId ∉ rest.map (·.tileId) := by
        have := hnd
        rw [List.map_cons, List.nodup_cons] at this
        exact this.1
      have hall' : ∀ x ∈ rest,
          updateLoad load r.tileId .contentLoading x.tileId = .unloaded := by
        intro x hx
        have hne : ¬(x.tileId = r.tileId) := by
          intro he
          exact hnotmem (he ▸ List.mem_map_of_mem (·.tileId) hx)
        rw [updateLoad, if_neg hne]
        exact hall x (List.mem_cons_of_mem _ hx)
      have hnd' : (rest.map (·.tileId)).Nodup := by
        rw [List.map_cons, List.nodup_cons] at hnd
        exact hnd.2
      have ihr := ih _ _ hall' hnd' hlt'
      have htake : limit - count = (limit - (count + 1)) + 1 := by omega
      simp [dispatchLoop, loadContentM, hr, hstop, htake, ihr]

/-- C9: for every frame and load queue, the queue is sorted ascending by
load priority before dispatch, and the loads dispatched from it are the
first `N = min(queueSize, maximumSimultaneousTileLoads − loadsInProgress)`
entries of the sorted queue — the N smallest priorities (every dispatched
priority is at most every undispatched one); no load is dispatched when
loadsInProgress has already reached the limit.  Hypotheses: queued tiles
are Unloaded (the enqueue gate) and pairwise distinct. -/
theorem C9_processQueue (queue : List LoadRecordM) (load : Nat → LoadStateM)
    (inFlight limit : Nat)
    (hall : ∀ r ∈ queue, load r.tileId = .unloaded)
    (hnd : (queue.map (·.tileId)).Nodup) :
    (limit ≤ inFlight →
      (processQueueM queue load inFlight limit).dispatched = []) ∧
    (inFlight < limit →
      (processQueueM queue load inFlight limit).queueAfter.Perm queue ∧
      (processQueueM queue load inFlight limit).queueAfter.Sorted
        (fun a b => a.priority ≤ b.priority) ∧
      (processQueueM queue load inFlight limit).dispatched =
        (processQueueM queue load inFlight limit).queueAfter.take
          (min queue.length (limit - inFlight)) ∧
      (∀ a ∈ (processQueueM queue load inFlight limit).dispatched,
        ∀ b ∈ (processQueueM queue load inFlight limit).queueAfter.drop
          (min queue.length (limit - inFlight)),
        a.priority ≤ b.priority)) := by
  constructor
  · intro h
    simp [processQueueM, h]
  · intro h
    have hnle : ¬(limit ≤ inFlight) := not_le.mpr h
    simp only [processQueueM, if_neg hnle]
    have hperm : (queue.insertionSort
        (fun a b => a.priority ≤ b.priority)).Perm queue :=
      List.perm_insertionSort _ _
    have hsorted : (queue.insertionSort
        (fun a b => a.priority ≤ b.priority)).Sorted
        (fun a b => a.priority ≤ b.priority) :=
      List.sorted_insertionSort _ _
    have hall' : ∀ r ∈ queue.insertionSort (fun a b => a.priority ≤ b.priority),
        load r.tileId = .unloaded :=
      fun r hr => hall r (hperm.mem_iff.mp hr)
    have hnd' : ((queue.insertionSort
        (fun a b => a.priority ≤ b.priority)).map (·.tileId)).Nodup :=
      ((hperm.map (·.tileId)).nodup_iff).mpr hnd
    have hd := dispatchLoop_spec limit _ load inFlight hall' hnd' h
    have hlen : (queue.insertionSort
        (fun a b => a.priority ≤ b.priority)).length = queue.length :=
      hperm.length_eq
    have htake : (queue.insertionSort
        (fun a b => a.priority ≤ b.priority)).take (limit - inFlight) =
        (queue.insertionSort (fun a b => a.priority ≤ b.priority)).take
          (min queue.length (limit - inFlight)) := by
      rcases le_or_lt queue.length (limit - inFlight) with hle | hgt
      · rw [min_eq_left hle,
          @List.take_of_length_le _ (limit - inFlight)
            (queue.insertionSort (fun a b => a.priority ≤ b.priority))
            (by omega),
          @List.take_of_length_le _ queue.length
            (queue.insertionSort (fun a b => a.priority ≤ b.priority))
            (le_of_eq hlen)]
      · rw [min_eq_right hgt.le]
    refine ⟨hperm, hsorted, ?_, ?_⟩
    · rw [hd, htake]
    · intro a ha b hb
      have hpw : List.Pairwise (fun a b => a.priority ≤ b.priority)
          ((queue.insertionSort (fun a b => a.priority ≤ b.priority)).take
              (min queue.length (limit - inFlight)) ++
            (queue.insertionSort (fun a b => a.priority ≤ b.priority)).drop
              (min queue.length (limit - inFlight))) := by
        rw [List.take_append_drop]
        exact hsorted
      have hsplit := (List.pairwise_append.mp hpw).2.2
      rw [hd, htake] at ha
      exact hsplit a ha b hb

/-- C9 counterexample: the claim's universal reading fails on reachable
queues.  First input: the same Unloaded tile queued twice (a duplicate the
traversal can produce, see C4_counterexample) with two free load slots —
the second loadContent call is a no-op, so 1 load is dispatched where
`N = min(2, 2 - 0) = 2` entries are claimed.  Second input: one record for
a tile in the Done state (enqueued through the raster-overlay branch of the
gate) with one free slot — loadContent starts nothing, so 0 loads are
dispatched where `N = min(1, 1 - 0) = 1` is claimed. -/
theorem C9_counterexample :
    ((processQueueM [⟨1, 1⟩, ⟨1, 2⟩] (fun _ => .unloaded) 0 2).dispatched.length
        = 1 ∧
      min ([(⟨1, 1⟩ : LoadRecordM), ⟨1, 2⟩] : List LoadRecordM).length (2 - 0)
        = 2) ∧
    ((processQueueM [⟨2, 1⟩] (fun _ => .doneLoading) 0 1).dispatched.length
        = 0 ∧
      min ([(⟨2, 1⟩ : LoadRecordM)] : List LoadRecordM).length (1 - 0) = 1) := by
  refine ⟨⟨by decide, by decide⟩, ⟨by decide, by decide⟩⟩

/-- Witness for C9_processQueue on a two-record queue with one load slot:
the dispatched load is the smallest-priority record. -/
theorem C9_processQueue_witness :
    (processQueueM [⟨1, 2⟩, ⟨2, 1⟩] (fun _ => .unloaded) 0 1).dispatched =
      (processQueueM [⟨1, 2⟩, ⟨2, 1⟩]
        (fun _ => .unloaded) 0 1).queueAfter.take (min 2 1) := by
  exact ((C9_processQueue [⟨1, 2⟩, ⟨2, 1⟩] (fun _ => .unloaded) 0 1
    (by intro r _; rfl) (by decide)).2 (by decide)).2.2.1

/-! ## C7: single-flight token refresh -/

/-- Each list element is mapped, stated as an elementwise relation. -/
theorem forall₂_map_self {α β : Type} (f : α → β) (l : List α) :
    List.Forall₂ (fun t u => u = f t) l (l.map f) := by
  induction l with
  | nil => exact List.Forall₂.nil
  | cons x xs ih => exact List.Forall₂.cons rfl ih

/-- Looking up Authorization after setAuthHeader yields the new value. -/
theorem lookup_setAuthHeader (headers : List (String × String)) (v : String) :
    List.lookup "Authorization" (setAuthHeader headers v) = some v := by
  induction headers with
  | nil => simp [setAuthHeader, List.lookup]
  | cons h t ih =>
    by_cases hh : h.1 = "Authorization"
    · simp [setAuthHeader, hh, List.lookup]
    · have : ("Authorization" == h.1) = false := by
        simp [hh]
        exact fun he => hh he.symm
      simp [setAuthHeader, hh, List.lookup, this, ih]

/-- The controller's in-flight refresh count always mirrors the
single-flight flag. -/
theorem ionStep_inv (hasIonAssetID : Bool) (st : IonControllerState)
    (e : IonEvent)
    (h : st.refreshRequestsInFlight =
      if st.isRefreshingIonToken then 1 else 0) :
    (ionStep hasIonAssetID st e).refreshRequestsInFlight =
      if (ionStep hasIonAssetID st e).isRefreshingIonToken then 1 else 0 := by
  cases e with
  | tileFailed contentStatus ctx =>
    cases contentStatus with
    | none => exact h
    | some code =>
      by_cases h1 : code ≠ 401
      · simpa [ionStep, h1] using h
      · by_cases h2 : hasIonAssetID
        · by_cases h3 : st.isRefreshingIonToken
          · simpa [ionStep, h1, h2, h3] using h
          · simp [ionStep, h1, h2, h3]
            rw [h, if_neg (by simpa using h3)]
        · simpa [ionStep, h1, h2] using h
  | refreshCompleted ctx resp =>
    by_cases h0 : st.refreshRequestsInFlight = 0
    · simpa [ionStep, h0] using h
    · simp only [ionStep, if_neg h0]
      cases hb : st.isRefreshingIonToken <;> rw [hb] at h <;> simp at h <;>
        simp <;> omega
  | refreshFaulted =>
    by_cases h0 : st.refreshRequestsInFlight = 0
    · simpa [ionStep, h0] using h
    · simp only [ionStep, if_neg h0]
      cases hb : st.isRefreshingIonToken <;> rw [hb] at h <;> simp at h <;>
        simp <;> omega

/-- The invariant holds after any event sequence. -/
theorem ionRun_inv (hasIonAssetID : Bool) (evs : List IonEvent)
    (st : IonControllerState)
    (h : st.refreshRequestsInFlight =
      if st.isRefreshingIonToken then 1 else 0) :
    (ionRun hasIonAssetID st evs).refreshRequestsInFlight =
      if (ionRun hasIonAssetID st evs).isRefreshingIonToken then 1 else 0 := by
  induction evs generalizing st with
  | nil => exact h
  | cons e rest ih => exact ih _ (ionStep_inv hasIonAssetID st e h)

/-- C7: at most one endpoint refresh request is in flight at a time (the
single-flight flag suppresses concurrent refreshes across any sequence of
tile failures and refresh completions), and when the refresh response
arrives, every loaded tile of the same context in FailedTemporarily with
HTTP status 401 is marked permanently failed when the refresh failed and
returned to Unloaded when it succeeded, with the context's Authorization
header updated to the new bearer token on success; other tiles are left
unchanged. -/
theorem C7_token_refresh :
    (∀ (hasIonAssetID : Bool) (tiles : List IonTileM)
      (headers : List (String × String)) (evs : List IonEvent),
      (ionRun hasIonAssetID (ionInit tiles headers)
        evs).refreshRequestsInFlight ≤ 1) ∧
    (∀ (ctxId : Nat) (headers : List (String × String))
      (resp : Option (Nat × Option String)) (tiles : List IonTileM),
      List.Forall₂ (fun t u => u =
        if ionTileAffected ctxId t then
          if refreshFailed resp then { t with state := LoadStateM.failed }
          else { t with state := LoadStateM.unloaded }
        else t) tiles (handleTokenRefreshResponseM ctxId headers resp tiles).1 ∧
      (∀ (code : Nat) (tok : String), resp = some (code, some tok) →
        200 ≤ code → code < 300 →
        List.lookup "Authorization"
          (handleTokenRefreshResponseM ctxId headers resp tiles).2.1 =
          some ("Bearer " ++ tok))) := by
  constructor
  · intro hasIonAssetID tiles headers evs
    have h := ionRun_inv hasIonAssetID evs (ionInit tiles headers) rfl
    rw [h]
    by_cases hb : (ionRun hasIonAssetID (ionInit tiles headers)
        evs).isRefreshingIonToken = true
    · rw [if_pos hb]
    · rw [if_neg hb]
      omega
  · intro ctxId headers resp tiles
    constructor
    · cases resp with
      | none => exact forall₂_map_self _ tiles
      | some p =>
        obtain ⟨code, parsed⟩ := p
        by_cases h : 200 ≤ code ∧ code < 300
        · cases parsed with
          | none =>
            simp only [handleTokenRefreshResponseM, refreshFailed,
              updateContextWithNewTokenM, if_pos h]
            exact forall₂_map_self _ tiles
          | some tok =>
            simp only [handleTokenRefreshResponseM, refreshFailed,
              updateContextWithNewTokenM, if_pos h]
            exact forall₂_map_self _ tiles
        · simp only [handleTokenRefreshResponseM, refreshFailed, if_neg h]
          exact forall₂_map_self _ tiles
    · intro code tok hresp h2 h3
      subst hresp
      simp only [handleTokenRefreshResponseM, updateContextWithNewTokenM,
        if_pos (And.intro h2 h3)]
      exact lookup_setAuthHeader headers ("Bearer " ++ tok)

/-- Witness for C7_token_refresh: two concurrent 401 failures issue one
refresh request, and a successful 200 response rewrites the Authorization
header to the new bearer token. -/
theorem C7_token_refresh_witness :
    (ionRun true (ionInit [⟨7, .failedTemporarily, some ⟨401⟩⟩] [])
        [.tileFailed (some 401) 7,
          .tileFailed (some 401) 7]).refreshRequestsInFlight ≤ 1 ∧
    List.lookup "Authorization"
        (handleTokenRefreshResponseM 7 [] (some (200, some "T"))
          [⟨7, .failedTemporarily, some ⟨401⟩⟩]).2.1 =
      some ("Bearer " ++ "T") := by
  refine ⟨C7_token_refresh.1 true _ _ _, ?_⟩
  exact (C7_token_refresh.2 7 [] (some (200, some "T")) _).2 200 "T" rfl
    (by norm_num) (by norm_num)

/-! ## C5: the kick marking walk

Support lemmas about `SelState.kick`, `chainTo` and `markChain`, leading to
the invariant that the kick marks exactly the parent chains of the rendered
descendants up to (and excluding) the visited tile. -/

theorem kick_frameNumber (s : SelState) :
    s.kick.frameNumber = s.frameNumber := by
  rw [SelState.kick]
  split <;> rfl

theorem kick_result (s : SelState) : s.kick.result = s.result := by
  rw [SelState.kick]
  split <;> rfl

theorem kick_keeps_kicked {s : SelState} (h : s.kicked = true) :
    s.kick.kicked = true := by
  rw [SelState.kick]
  split <;> simp [h]

theorem kick_wasKicked {f : Int} {s : SelState} (h1 : s.frameNumber = f)
    (h2 : s.result = .rendered ∨ s.result = .refined) :
    s.kick.wasKicked f = true := by
  rw [SelState.kick, if_pos h2]
  simp [SelState.wasKicked, h1]

theorem wasKicked_keeps {f : Int} {s u : SelState}
    (hf : u.frameNumber = s.frameNumber) (hk : s.kicked = true → u.kicked = true)
    (h : s.wasKicked f = true) : u.wasKicked f = true := by
  rw [SelState.wasKicked] at h ⊢
  simp only [Bool.and_eq_true, decide_eq_true_eq] at h ⊢
  exact ⟨hf ▸ h.1, hk h.2⟩

/-- Chains always fit in their fuel. -/
theorem chainTo_length {parent : Nat → Option Nat} {tId : Nat} :
    ∀ {fuel c l}, chainTo parent tId fuel c = some l → l.length < fuel := by
  intro fuel
  induction fuel with
  | zero => intro c l h; cases h
  | succ n ih =>
    intro c l h
    rw [chainTo] at h
    by_cases hc : c = tId
    · rw [if_pos hc] at h
      cases h
      simp
    · rw [if_neg hc] at h
      cases hp : parent c with
      | none => rw [hp] at h; simp at h
      | some p =>
        rw [hp] at h
        simp only [Option.map_eq_some'] at h
        obtain ⟨l', hq, rfl⟩ := h
        have := ih hq
        simp only [List.length_cons]
        omega

/-- Inversion of a successful chain: either at the target with an empty
chain, or one parent step with a shorter chain. -/
theorem chainTo_inv {parent : Nat → Option Nat} {tId fuel c : Nat}
    {l : List Nat} (h : chainTo parent tId (fuel + 1) c = some l) :
    (c = tId ∧ l = []) ∨
      (c ≠ tId ∧ ∃ p l', parent c = some p ∧
        chainTo parent tId fuel p = some l' ∧ l = c :: l') := by
  rw [chainTo] at h
  by_cases hc : c = tId
  · rw [if_pos hc] at h
    cases h
    exact Or.inl ⟨hc, rfl⟩
  · rw [if_neg hc] at h
    cases hp : parent c with
    | none => rw [hp] at h; simp at h
    | some p =>
      rw [hp] at h
      simp only [Option.map_eq_some'] at h
      obtain ⟨l', hq, rfl⟩ := h
      exact Or.inr ⟨hc, p, l', rfl, hq, rfl⟩

/-- The chain is independent of the fuel used to compute it. -/
theorem chainTo_det {parent : Nat → Option Nat} {tId : Nat} :
    ∀ {f1 c l1 f2 l2}, chainTo parent tId f1 c = some l1 →
      chainTo parent tId f2 c = some l2 → l1 = l2 := by
  intro f1
  induction f1 with
  | zero => intro c l1 f2 l2 h; cases h
  | succ n ih =>
    intro c l1 f2 l2 h1 h2
    cases f2 with
    | zero => cases h2
    | succ m =>
      rcases chainTo_inv h1 with ⟨hc, rfl⟩ | ⟨hc, p, l', hp, hq, rfl⟩
      · rcases chainTo_inv h2 with ⟨_, rfl⟩ | ⟨hc2, _, _, _, _, _⟩
        · rfl
        · exact absurd hc hc2
      · rcases chainTo_inv h2 with ⟨hc2, _⟩ | ⟨_, p2, l2', hp2, hq2, rfl⟩
        · exact absurd hc2 hc
        · rw [hp] at hp2
          cases hp2
          rw [ih hq hq2]

/-- The target is never above the start of a successful chain. -/
theorem chainTo_tId_le {parent : Nat → Option Nat} {tId : Nat}
    (hdec : ∀ c p, parent c = some p → p < c) :
    ∀ {fuel c l}, chainTo parent tId fuel c = some l → tId ≤ c := by
  intro fuel
  induction fuel with
  | zero => intro c l h; cases h
  | succ n ih =>
    intro c l h
    rcases chainTo_inv h with ⟨hc, _⟩ | ⟨hc, p, l', hp, hq, _⟩
    · omega
    · have h1 := ih hq
      have h2 := hdec c p hp
      omega

/-- Every chain member is strictly above the target tile and at most the
starting tile, assuming parent indices strictly decrease. -/
theorem chainTo_elements {parent : Nat → Option Nat} {tId : Nat}
    (hdec : ∀ c p, parent c = some p → p < c) :
    ∀ {fuel c l}, chainTo parent tId fuel c = some l →
      ∀ x ∈ l, tId < x ∧ x ≤ c := by
  intro fuel
  induction fuel with
  | zero => intro c l h; cases h
  | succ n ih =>
    intro c l h x hx
    rcases chainTo_inv h with ⟨hc, rfl⟩ | ⟨hc, p, l', hp, hq, rfl⟩
    · cases hx
    · rcases List.mem_cons.mp hx with rfl | hx'
      · have hle := chainTo_tId_le hdec h
        exact ⟨lt_of_le_of_ne hle (fun he => hc he.symm), le_refl x⟩
      · obtain ⟨ha, hb⟩ := ih hq x hx'
        have := hdec c p hp
        exact ⟨ha, by omega⟩

/-- Chains hold no duplicates when parent indices strictly decrease. -/
theorem chainTo_nodup {parent : Nat → Option Nat} {tId : Nat}
    (hdec : ∀ c p, parent c = some p → p < c) :
    ∀ {fuel c l}, chainTo parent tId fuel c = some l → l.Nodup := by
  intro fuel
  induction fuel with
  | zero => intro c l h; cases h
  | succ n ih =>
    intro c l h
    rcases chainTo_inv h with ⟨_, rfl⟩ | ⟨hc, p, l', hp, hq, rfl⟩
    · exact List.nodup_nil
    · refine List.nodup_cons.mpr ⟨?_, ih hq⟩
      intro hmem
      obtain ⟨_, hb⟩ := chainTo_elements hdec hq c hmem
      have := hdec c p hp
      omega

/-- A successful chain is reproduced with its canonical fuel. -/
theorem chainTo_canonical {parent : Nat → Option Nat} {tId : Nat} :
    ∀ {fuel c l}, chainTo parent tId fuel c = some l →
      chainTo parent tId (l.length + 1) c = some l := by
  intro fuel
  induction fuel with
  | zero => intro c l h; cases h
  | succ n ih =>
    intro c l h
    rcases chainTo_inv h with ⟨hc, rfl⟩ | ⟨hc, p, l', hp, hq, rfl⟩
    · rw [chainTo, if_pos hc]
    · simp only [List.length_cons]
      rw [chainTo, if_neg hc, hp]
      dsimp only
      rw [ih hq]
      rfl

/-- The chain starting at a member of a chain is the corresponding
suffix. -/
theorem chainTo_suffix {parent : Nat → Option Nat} {tId : Nat} :
    ∀ {fuel c l0 x t}, chainTo parent tId fuel c = some (l0 ++ x :: t) →
      chainTo parent tId (t.length + 2) x = some (x :: t) := by
  intro fuel
  induction fuel with
  | zero => intro c l0 x t h; cases h
  | succ n ih =>
    intro c l0 x t h
    rcases chainTo_inv h with ⟨_, habs⟩ | ⟨hc, p, l', hp, hq, heq⟩
    · exact absurd habs (List.append_ne_nil_of_right_ne_nil l0 (by simp))
    · cases l0 with
      | nil =>
        simp only [List.nil_append] at heq
        cases heq
        rw [chainTo, if_neg hc, hp]
        dsimp only
        rw [chainTo_canonical hq]
        rfl
      | cons y l0' =>
        simp only [List.cons_append] at heq
        cases heq
        exact ih hq

/-- Kicking twice is kicking once. -/
theorem kick_idem (s : SelState) : s.kick.kick = s.kick := by
  obtain ⟨fn, r, k⟩ := s
  by_cases h : r = .rendered ∨ r = .refined
  · simp [SelState.kick, h]
  · simp [SelState.kick, h]

/-- The walk leaves each record alone or kicks it. -/
theorem markChain_apply (parent : Nat → Option Nat) (tId : Nat) (f : Int) :
    ∀ (fuel : Nat) (cur : Option Nat) (m : SelMap) (y : Nat),
      markChain parent tId f fuel cur m y = m y ∨
        markChain parent tId f fuel cur m y = (m y).kick := by
  intro fuel
  induction fuel with
  | zero => intro cur m y; cases cur <;> exact Or.inl rfl
  | succ n ih =>
    intro cur m y
    cases cur with
    | none => exact Or.inl rfl
    | some c =>
      rw [markChain]
      by_cases hc : ((m c).wasKicked f || decide (c = tId)) = true
      · rw [if_pos hc]
        exact Or.inl rfl
      · rw [if_neg hc]
        rcases ih (parent c) (updateSel m c (m c).kick) y with h | h <;>
          rw [h] <;> by_cases hy : y = c
        · subst hy
          right
          simp [updateSel]
        · left
          simp [updateSel, hy]
        · subst hy
          right
          simp [updateSel, kick_idem]
        · right
          simp [updateSel, hy]

/-- The walk never changes frame number or result, and never clears the
kicked flag. -/
theorem markChain_preserves (parent : Nat → Option Nat) (tId : Nat) (f : Int)
    (fuel : Nat) (cur : Option Nat) (m : SelMap) (y : Nat) :
    (markChain parent tId f fuel cur m y).frameNumber = (m y).frameNumber ∧
    (markChain parent tId f fuel cur m y).result = (m y).result ∧
    ((m y).kicked = true → (markChain parent tId f fuel cur m y).kicked = true) := by
  rcases markChain_apply parent tId f fuel cur m y with h | h <;> rw [h]
  · exact ⟨rfl, rfl, id⟩
  · exact ⟨kick_frameNumber _, kick_result _, fun hk => kick_keeps_kicked hk⟩

/-- Within a list, a kicked member has all members above it kicked. -/
def UpClosedList (f : Int) (m : SelMap) (l : List Nat) : Prop :=
  ∀ l0 x t, l = l0 ++ x :: t → (m x).wasKicked f = true →
    ∀ y ∈ t, (m y).wasKicked f = true

/-- The walk from a rendered descendant marks its whole chain to the
visited tile kicked and touches nothing else, provided the chain's records
are of the current frame with Rendered or Refined results and kicked
members are upward closed. -/
theorem markChain_marks (parent : Nat → Option Nat) (tId : Nat) (f : Int) :
    ∀ (l : List Nat) (fuelc fuelm c : Nat) (m : SelMap),
      chainTo parent tId fuelc c = some l →
      l.length ≤ fuelm →
      (∀ x ∈ l, (m x).frameNumber = f ∧
        ((m x).result = .rendered ∨ (m x).result = .refined)) →
      UpClosedList f m l →
      l.Nodup →
      (∀ x ∈ l, (markChain parent tId f fuelm (some c) m x).wasKicked f = true) ∧
      (∀ y, y ∉ l → markChain parent tId f fuelm (some c) m y = m y) := by
  intro l
  induction l with
  | nil =>
    intro fuelc fuelm c m hch hlen hgood hclosed hnd
    have hc : c = tId := by
      cases fuelc with
      | zero => cases hch
      | succ n =>
        rcases chainTo_inv hch with ⟨hc, _⟩ | ⟨_, _, _, _, _, habs⟩
        · exact hc
        · simp at habs
    subst hc
    refine ⟨fun x hx => absurd hx (List.not_mem_nil x), fun y _ => ?_⟩
    cases fuelm with
    | zero => rfl
    | succ n =>
      rw [markChain, if_pos (by simp)]
  | cons a l2 ihl =>
    intro fuelc fuelm c m hch hlen hgood hclosed hnd
    cases fuelc with
    | zero => cases hch
    | succ n =>
      rcases chainTo_inv hch with ⟨_, habs⟩ | ⟨hc, p, l3, hp, hq, heq⟩
      · simp at habs
      · cases heq
        cases fuelm with
        | zero => simp at hlen
        | succ fm =>
          rw [markChain]
          by_cases hk : (m a).wasKicked f = true
          · rw [if_pos (by simp [hk])]
            refine ⟨fun x hx => ?_, fun y _ => rfl⟩
            rcases List.mem_cons.mp hx with rfl | hx'
            · exact hk
            · exact hclosed [] a l2 rfl hk x hx'
          · rw [if_neg (by simp [hk, hc]), hp]
            have hgood1 : ∀ x ∈ l2,
                ((updateSel m a (m a).kick) x).frameNumber = f ∧
                (((updateSel m a (m a).kick) x).result = .rendered ∨
                  ((updateSel m a (m a).kick) x).result = .refined) := by
              intro x hx
              have hne : ¬(x = a) :=
                fun he => (List.nodup_cons.mp hnd).1 (he ▸ hx)
              simp only [updateSel, if_neg hne]
              exact hgood x (List.mem_cons_of_mem _ hx)
            have hclosed1 : UpClosedList f (updateSel m a (m a).kick) l2 := by
              intro l0 x t heq2 hkx y hy
              have hxmem : x ∈ l2 := by
                rw [heq2]
                exact List.mem_append_right _ (List.mem_cons_self x t)
              have hxne : ¬(x = a) :=
                fun he => (List.nodup_cons.mp hnd).1 (he ▸ hxmem)
              have hymem : y ∈ l2 := by
                rw [heq2]
                exact List.mem_append_right _ (List.mem_cons_of_mem _ hy)
              have hyne : ¬(y = a) :=
                fun he => (List.nodup_cons.mp hnd).1 (he ▸ hymem)
              simp only [updateSel, if_neg hxne] at hkx
              have := hclosed (a :: l0) x t (by rw [heq2]; rfl) hkx y hy
              simpa only [updateSel, if_neg hyne]
            obtain ⟨ihA, ihB⟩ := ihl n fm p (updateSel m a (m a).kick) hq
              (by simp at hlen; omega) hgood1 hclosed1
              (List.nodup_cons.mp hnd).2
            constructor
            · intro x hx
              rcases List.mem_cons.mp hx with rfl | hx'
              · have hcnot : x ∉ l2 := (List.nodup_cons.mp hnd).1
                rw [ihB x hcnot]
                simp only [updateSel, if_pos rfl]
                have hg := hgood x (List.mem_cons_self x l2)
                exact kick_wasKicked hg.1 hg.2
              · exact ihA x hx'
            · intro y hy
              rw [List.mem_cons] at hy
              push_neg at hy
              rw [ihB y hy.2]
              simp only [updateSel, if_neg hy.1]


/-- Folding the walk over all rendered descendants: every chain is fully
marked, tiles off every chain are untouched, frame numbers and results are
preserved (the kicked flag is never cleared), and tiles kicked during the
pass have their whole chain kicked. -/
theorem markKicked_go (parent : Nat → Option Nat) (tId : Nat) (f : Int)
    (fuel : Nat) (hdec : ∀ c p, parent c = some p → p < c) :
    ∀ (ds : List Nat) (m0 m : SelMap),
      (∀ y, (m y).frameNumber = (m0 y).frameNumber ∧
        (m y).result = (m0 y).result ∧
        ((m0 y).kicked = true → (m y).kicked = true)) →
      (∀ x fuel2 t, (m x).wasKicked f = true → (m0 x).wasKicked f = false →
        chainTo parent tId fuel2 x = some (x :: t) →
        ∀ y ∈ t, (m y).wasKicked f = true) →
      (∀ d ∈ ds, ∃ l, chainTo parent tId fuel d = some l) →
      (∀ d ∈ ds, ∀ l, chainTo parent tId fuel d = some l → ∀ x ∈ l,
        (m0 x).frameNumber = f ∧
        ((m0 x).result = .rendered ∨ (m0 x).result = .refined) ∧
        (m0 x).wasKicked f = false) →
      (∀ d ∈ ds, ∀ l, chainTo parent tId fuel d = some l →
        ∀ x ∈ l, (markKicked parent tId f fuel ds m x).wasKicked f = true) ∧
      (∀ y, (∀ d ∈ ds, ∀ l, chainTo parent tId fuel d = some l → y ∉ l) →
        markKicked parent tId f fuel ds m y = m y) ∧
      (∀ y, (markKicked parent tId f fuel ds m y).frameNumber =
          (m y).frameNumber ∧
        (markKicked parent tId f fuel ds m y).result = (m y).result ∧
        ((m y).kicked = true →
          (markKicked parent tId f fuel ds m y).kicked = true)) := by
  intro ds
  induction ds with
  | nil =>
    intro m0 m hpres hcc hreach hgood0
    exact ⟨fun d hd => absurd hd (List.not_mem_nil d), fun y _ => rfl,
      fun y => ⟨rfl, rfl, id⟩⟩
  | cons d ds ihds =>
    intro m0 m hpres hcc hreach hgood0
    obtain ⟨ld, hch⟩ := hreach d (List.mem_cons_self d ds)
    have hgoodm : ∀ x ∈ ld, (m x).frameNumber = f ∧
        ((m x).result = .rendered ∨ (m x).result = .refined) := by
      intro x hx
      obtain ⟨h1, h2, _⟩ := hgood0 d (List.mem_cons_self d ds) ld hch x hx
      obtain ⟨p1, p2, _⟩ := hpres x
      refine ⟨p1.trans h1, ?_⟩
      rw [p2]
      exact h2
    have hclosedm : UpClosedList f m ld := by
      intro l0 x t heq hkx y hy
      have hx : x ∈ ld := by
        rw [heq]
        exact List.mem_append_right _ (List.mem_cons_self x t)
      have hx0 : (m0 x).wasKicked f = false :=
        (hgood0 d (List.mem_cons_self d ds) ld hch x hx).2.2
      have hsuf : chainTo parent tId (t.length + 2) x = some (x :: t) :=
        chainTo_suffix (heq ▸ hch)
      exact hcc x (t.length + 2) t hkx hx0 hsuf y hy
    obtain ⟨mA, mB⟩ := markChain_marks parent tId f ld fuel fuel d m hch
      (le_of_lt (chainTo_length hch)) hgoodm hclosedm (chainTo_nodup hdec hch)
    have hpres1 : ∀ y,
        (markChain parent tId f fuel (some d) m y).frameNumber =
          (m0 y).frameNumber ∧
        (markChain parent tId f fuel (some d) m y).result = (m0 y).result ∧
        ((m0 y).kicked = true →
          (markChain parent tId f fuel (some d) m y).kicked = true) := by
      intro y
      obtain ⟨q1, q2, q3⟩ := markChain_preserves parent tId f fuel (some d) m y
      obtain ⟨p1, p2, p3⟩ := hpres y
      exact ⟨q1.trans p1, q2.trans p2, fun hk => q3 (p3 hk)⟩
    have hcc1 : ∀ x fuel2 t,
        (markChain parent tId f fuel (some d) m x).wasKicked f = true →
        (m0 x).wasKicked f = false →
        chainTo parent tId fuel2 x = some (x :: t) →
        ∀ y ∈ t,
          (markChain parent tId f fuel (some d) m y).wasKicked f = true := by
      intro x fuel2 t hkx hx0 hchx y hy
      by_cases hxin : x ∈ ld
      · obtain ⟨l0, t2, heq⟩ := List.append_of_mem hxin
        have hsuf : chainTo parent tId (t2.length + 2) x = some (x :: t2) :=
          chainTo_suffix (heq ▸ hch)
        have ht : x :: t = x :: t2 := chainTo_det hchx hsuf
        have ht2 : t = t2 := by injection ht
        subst ht2
        have hyld : y ∈ ld := by
          rw [heq]
          exact List.mem_append_right _ (List.mem_cons_of_mem _ hy)
        exact mA y hyld
      · rw [mB x hxin] at hkx
        have hmy := hcc x fuel2 t hkx hx0 hchx y hy
        obtain ⟨q1, _, q3⟩ := markChain_preserves parent tId f fuel (some d) m y
        exact wasKicked_keeps q1 q3 hmy
    have hreach2 : ∀ d2 ∈ ds, ∃ l, chainTo parent tId fuel d2 = some l :=
      fun d2 hd2 => hreach d2 (List.mem_cons_of_mem _ hd2)
    have hgood2 : ∀ d2 ∈ ds, ∀ l, chainTo parent tId fuel d2 = some l →
        ∀ x ∈ l, (m0 x).frameNumber = f ∧
          ((m0 x).result = .rendered ∨ (m0 x).result = .refined) ∧
          (m0 x).wasKicked f = false :=
      fun d2 hd2 => hgood0 d2 (List.mem_cons_of_mem _ hd2)
    obtain ⟨A2, B2, C2⟩ := ihds m0 (markChain parent tId f fuel (some d) m)
      hpres1 hcc1 hreach2 hgood2
    refine ⟨?_, ?_, ?_⟩
    · intro d2 hd2 l hl x hx
      rcases List.mem_cons.mp hd2 with rfl | hd3
      · have hld : l = ld := chainTo_det hl hch
        subst hld
        have h1 := mA x hx
        obtain ⟨c1, _, c3⟩ := C2 x
        exact wasKicked_keeps c1 c3 h1
      · exact A2 d2 hd3 l hl x hx
    · intro y hy
      have hy2 : ∀ d2 ∈ ds, ∀ l, chainTo parent tId fuel d2 = some l →
          y ∉ l := fun d2 hd2 => hy d2 (List.mem_cons_of_mem _ hd2)
      have hstep := B2 y hy2
      have hynot : y ∉ ld := hy d (List.mem_cons_self d ds) ld hch
      exact hstep.trans (mB y hynot)
    · intro y
      obtain ⟨c1, c2, c3⟩ := C2 y
      obtain ⟨q1, q2, q3⟩ := markChain_preserves parent tId f fuel (some d) m y
      exact ⟨c1.trans q1, c2.trans q2, fun hk => c3 (q3 hk)⟩

/-- C5: after the kick marking performed while visiting tile `tId` in frame
`f` (the loop of _kickDescendantsAndRenderTile, applied by markKicked inside
kickDescendantsAndRenderTileM), every tile on the parent chain from each
kicked rendered descendant up to and excluding `tId` has kicked = true in
its frame-`f` selection state, and the marking never touches `tId` itself
or any of its ancestors (every tile with index at most `tId` — ancestors
included, since parent indices strictly decrease — keeps its record).
Hypotheses: parents precede children in the tile arena (strictly decreasing
indices), every rendered descendant's parent chain reaches `tId`, and the
chain records carry the current frame with Rendered or Refined results, not
yet kicked — the state the traversal establishes before the kick runs. -/
theorem C5_kick_marking (parent : Nat → Option Nat) (tId : Nat) (f : Int)
    (fuel : Nat) (ds : List Nat) (m : SelMap)
    (hdec : ∀ c p, parent c = some p → p < c)
    (hreach : ∀ d ∈ ds, ∃ l, chainTo parent tId fuel d = some l)
    (hgood : ∀ d ∈ ds, ∀ l, chainTo parent tId fuel d = some l → ∀ x ∈ l,
      (m x).frameNumber = f ∧
      ((m x).result = .rendered ∨ (m x).result = .refined) ∧
      (m x).wasKicked f = false) :
    (∀ d ∈ ds, ∀ l, chainTo parent tId fuel d = some l →
      ∀ x ∈ l, (markKicked parent tId f fuel ds m x).wasKicked f = true) ∧
    (∀ y, y ≤ tId → markKicked parent tId f fuel ds m y = m y) := by
  obtain ⟨A, B, _⟩ := markKicked_go parent tId f fuel hdec ds m m
    (fun y => ⟨rfl, rfl, id⟩)
    (fun x fuel2 t hkx hx0 hchx y hy => by rw [hx0] at hkx; cases hkx)
    hreach hgood
  refine ⟨A, ?_⟩
  intro y hy
  apply B
  intro d hd l hl hyl
  obtain ⟨h1, _⟩ := chainTo_elements hdec hl y hyl
  omega

/-- Parent map for the C5 witness: 5 → 3 → 0. -/
def c5parent : Nat → Option Nat := fun n =>
  if n = 5 then some 3 else if n = 3 then some 0 else none

/-- Selection map for the C5 witness: descendant 5 rendered this frame,
intermediate 3 refined this frame, the visited tile 0 untouched. -/
def c5m : SelMap := fun n =>
  if n = 5 then ⟨1, .rendered, false⟩
  else if n = 3 then ⟨1, .refined, false⟩
  else ⟨0, .noResult, false⟩

/-- Witness for C5_kick_marking: kicking rendered descendant 5 marks 5 and
its ancestor 3 kicked and leaves the visited tile 0 untouched. -/
theorem C5_kick_marking_witness :
    ((markKicked c5parent 0 1 10 [5] c5m 5).wasKicked 1 = true ∧
      (markKicked c5parent 0 1 10 [5] c5m 3).wasKicked 1 = true) ∧
      markKicked c5parent 0 1 10 [5] c5m 0 = c5m 0 := by
  have hdec : ∀ c p, c5parent c = some p → p < c := by
    intro c p h
    by_cases h5 : c = 5
    · subst h5
      simp [c5parent] at h
      omega
    · by_cases h3 : c = 3
      · subst h3
        simp [c5parent, h5] at h
        omega
      · simp [c5parent, h5, h3] at h
  have heval : chainTo c5parent 0 10 5 = some [5, 3] := by decide
  have hreach : ∀ d ∈ [5], ∃ l, chainTo c5parent 0 10 d = some l := by
    intro d hd
    rw [List.mem_singleton] at hd
    subst hd
    exact ⟨[5, 3], heval⟩
  have hgood : ∀ d ∈ [5], ∀ l, chainTo c5parent 0 10 d = some l → ∀ x ∈ l,
      (c5m x).frameNumber = 1 ∧
      ((c5m x).result = .rendered ∨ (c5m x).result = .refined) ∧
      (c5m x).wasKicked 1 = false := by
    intro d hd l hl x hx
    rw [List.mem_singleton] at hd
    subst hd
    have hleq : l = [5, 3] := by
      have := hl.symm.trans heval
      exact Option.some.inj this
    subst hleq
    rcases List.mem_cons.mp hx with rfl | hx2
    · exact ⟨by decide, Or.inl (by decide), by decide⟩
    · rcases List.mem_cons.mp hx2 with rfl | hx3
      · exact ⟨by decide, Or.inr (by decide), by decide⟩
      · cases hx3
  obtain ⟨A, B⟩ := C5_kick_marking c5parent 0 1 10 [5] c5m hdec hreach hgood
  refine ⟨⟨?_, ?_⟩, B 0 (le_refl 0)⟩
  · exact A 5 (List.mem_singleton.mpr rfl) [5, 3] heval 5
      (List.mem_cons_self 5 [3])
  · exact A 5 (List.mem_singleton.mpr rfl) [5, 3] heval 3
      (List.mem_cons_of_mem 5 (List.mem_cons_self 3 []))

/-- Configuration for the C4 counterexample: root tile 0 (forbid-holes on,
Replace refinement, previously Refined, not renderable, fails SSE) with a
single leaf child 1 whose content is not loaded. -/
def c4cfg : TravConfig :=
  { childrenOf := fun n => if n = 0 then [1] else []
    parent := fun n => if n = 1 then some 0 else none
    attrs := fun n =>
      if n = 0 then
        ⟨1, false, false, .url "t.json", false, false, false, false, false,
          false, false, false⟩
      else
        ⟨1, false, false, .url "c.b3dm", false, false, false, false, false,
          false, false, false⟩
    geom := ⟨1, fun _ _ => true, fun _ _ => 10, fun _ _ _ => 100, fun _ => 0,
      fun _ => false, fun _ _ => none⟩
    opts := ⟨50, 64, true, true, false, false, true, true, 5⟩
    currentFrame := 1
    lastFrame := 0
    kickFuel := 5 }

/-- Last-frame selection states for the C4 counterexample: the root was
Refined, the child was never visited. -/
def c4sel : SelMap := fun n =>
  if n = 0 then ⟨0, .refined, false⟩ else ⟨0, .noResult, false⟩

/-- C4 counterexample: in a single updateView traversal frame, child tile 1
is added to the Medium load queue twice — once by the forbid-holes pass
_queueLoadOfChildrenRequiredForRefinement (invoked from its parent) and
once by _renderLeaf when the child itself is visited — because enqueuing
does not change the tile's Unloaded load state.  This contradicts the claim
that no tile is added to any load queue more than once per frame. -/
theorem C4_counterexample :
    ((updateViewM c4cfg 5 0 c4sel (fun _ => .unloaded) []).loadQueueMedium.map
      (fun r => r.tileId)) = [1, 1] := by
  decide

end CesiumSpec
